import Mathlib

/-!
# Connection core of the embedded web server (`webserver/connection.cpp`)

A shallow embedding of `http::server::connection`.  The C++ object becomes the
record `connection`; every member function becomes a pure function on that
record.  Calls into the I/O context (`async_write`, `async_read_some`, timers)
and into external collaborators (`connection_manager_.stop`,
`websocket_parser.SendPing`) are recorded in bookkeeping fields of the record,
so that properties about what was submitted, and in which order, can be stated.
Calls to the logger do not touch the connection and are left out.

`std::string` is modelled as `List Char`.
-/

namespace http.server

/-- Model of `std::string`. -/
abbrev Str := List Char

/-- The `ConnectionType` enumeration. -/
inductive ConnectionType where
  | connection_http
  | connection_websocket
  | connection_websocket_closing
  deriving DecidableEq, Repr

/-- The `status_` enumeration of a connection. -/
inductive connection_status where
  | INITIALIZING
  | WAITING_HANDSHAKE
  | ENDING_HANDSHAKE
  | WAITING_READ
  | READING
  | WAITING_WRITE
  | ENDING_WRITE
  deriving DecidableEq, Repr

/-- The values of `boost::system::error_code` the connection distinguishes:
no error, `boost::asio::error::eof`, `boost::asio::error::operation_aborted`,
and any other error. -/
inductive error_code where
  | success
  | eof
  | operation_aborted
  | other_error
  deriving DecidableEq, Repr

/-- The C++ conversion of an `error_code` to `bool`: true when an error is set. -/
def error_code.is_set : error_code → Bool
  | .success => false
  | _ => true

/-- The three values of `boost::tribool`. -/
inductive tribool where
  | true_value
  | false_value
  | indeterminate_value
  deriving DecidableEq, Repr

/-- The completion handler bound to an `async_write`. -/
inductive write_handler where
  | handle_write
  | handle_write_file
  deriving DecidableEq, Repr

/-- The members of `reply::status_type` that the connection names, and the
remaining codes a request handler may produce. -/
inductive status_type where
  | ok
  | no_content
  | not_modified
  | switching_protocols
  | download_file
  | bad_request
  | not_found
  | internal_server_error
  | other (code : Nat)
  deriving DecidableEq, Repr

/-- A reply header (`name`, `value`). -/
structure header where
  name : Str
  value : Str
  deriving DecidableEq, Repr

/-- The `reply` object: status, headers and content. -/
structure reply where
  status : status_type
  headers : List header
  content : Str
  deriving DecidableEq, Repr

/-- The part of `request` the connection reads or fills in. -/
structure request where
  method : Str
  uri : Str
  /-- Result of `get_req_header(&request_, "Connection")`; `none` is `nullptr`. -/
  connection_header : Option Str
  keep_alive : Bool
  host_remote_address : Str
  host_local_address : Str
  host_remote_port : Str
  host_local_port : Str
  deriving DecidableEq, Repr

/-- The state of the `std::ifstream sendfile_`. -/
structure ifstream where
  is_open : Bool
  /-- The bytes of the file after the read position. -/
  rest : Str
  eofbit : Bool
  failbit : Bool
  deriving DecidableEq, Repr

/-- The connection object.  The first group of fields are the C++ members; the
second group records what the connection has asked of the I/O context and of
its collaborators. -/
structure connection where
  secure_ : Bool
  keepalive_ : Bool
  write_in_progress : Bool
  connection_type : ConnectionType
  status_ : connection_status
  read_timeout_ : Nat
  default_abandoned_timeout_ : Nat
  default_max_requests_ : Nat
  write_buffer : Str
  writeQ : List Str
  /-- Number of bytes held by the read buffer `_buf`. -/
  _buf : Nat
  sendfile_ : ifstream
  /-- Whether `send_buffer_` points to an allocated array. -/
  send_buffer_ : Bool
  host_remote_endpoint_address_ : Str
  host_remote_endpoint_port_ : Str
  host_local_endpoint_address_ : Str
  host_local_endpoint_port_ : Str
  host_last_request_uri_ : Str
  /-- Every `async_write` submitted so far, oldest first, with its handler. -/
  async_writes : List (write_handler × Str)
  /-- Handlers of the submitted writes whose completion has not run yet. -/
  pending_writes : List write_handler
  /-- Number of `async_read_some` submitted whose completion has not run yet. -/
  pending_reads : Nat
  /-- Whether an `async_handshake` is outstanding. -/
  pending_handshake : Bool
  /-- Whether the read timer is scheduled. -/
  read_timer_armed : Bool
  /-- Whether the abandoned timer is scheduled. -/
  abandoned_timer_armed : Bool
  /-- Number of calls to `connection_manager_.stop(shared_from_this())`. -/
  stop_requests : Nat
  /-- Number of calls to `websocket_parser.SendPing()`. -/
  ws_pings : Nat
  /-- Whether `websocket_parser.Start()` has run without a later `Stop()`. -/
  ws_started : Bool
  /-- Every call of `send_file`, oldest first: (`filename`, `attachment_name`). -/
  send_file_calls : List (Str × Str)
  /-- Whether the socket has not been closed. -/
  socket_open : Bool
  deriving DecidableEq, Repr

/-- What the connection needs from code outside `connection.cpp`. -/
structure Env where
  /-- The constant `FILE_SEND_BUFFER_SIZE` of `connection.hpp`. -/
  FILE_SEND_BUFFER_SIZE : Nat
  /-- The serializer `reply::to_string(method)`. -/
  to_string : reply → Str → Str
  /-- Headers and body of the canned reply for a status code. -/
  canned : status_type → List header × Str
  /-- The helper `reply::add_header(&rep, name, value)`. -/
  add_header : reply → Str → Str → reply
  /-- The value of `make_web_time(time(nullptr))`. -/
  web_time_now : Str
  /-- The value of `make_web_time(last_write_time(filename))`. -/
  web_time_of_file : Str → Str
  /-- The lookup `mime_types::extension_to_type`. -/
  extension_to_type : Str → Str
  /-- The frame `CWebsocketFrame::Create(opcode_text, resp, false)`. -/
  create_text_frame : Str → Str
  /-- The file system: the content of the file a name opens, if it opens. -/
  file_content : Str → Option Str

/-- The connection right after the plain constructor
(`connection::connection(io_service, manager, handler, read_timeout)`), or
after the secure one when `secure` is true. -/
def connection.construct (secure : Bool) (read_timeout : Nat) : connection :=
  { secure_ := secure
    keepalive_ := false
    write_in_progress := false
    connection_type := .connection_http
    status_ := .INITIALIZING
    read_timeout_ := read_timeout
    default_abandoned_timeout_ := 20 * 60
    default_max_requests_ := 20
    write_buffer := []
    writeQ := []
    _buf := 0
    sendfile_ := { is_open := false, rest := [], eofbit := false, failbit := false }
    send_buffer_ := false
    host_remote_endpoint_address_ := []
    host_remote_endpoint_port_ := []
    host_local_endpoint_address_ := []
    host_local_endpoint_port_ := []
    host_last_request_uri_ := []
    async_writes := []
    pending_writes := []
    pending_reads := 0
    pending_handshake := false
    read_timer_armed := false
    abandoned_timer_armed := false
    stop_requests := 0
    ws_pings := 0
    ws_started := false
    send_file_calls := []
    socket_open := true }

/-! ## Calls into the I/O context and the collaborators -/

/-- The call `boost::asio::async_write(socket, boost::asio::buffer(buf), h)`. -/
def async_write (h : write_handler) (buf : Str) (c : connection) : connection :=
  { c with async_writes := c.async_writes ++ [(h, buf)]
           pending_writes := c.pending_writes ++ [h] }

/-- The call `connection_manager_.stop(shared_from_this())`.  The manager is an
external collaborator; its call back into `connection::stop` is the separate
operation `stop`. -/
def connection_manager_stop (c : connection) : connection :=
  { c with stop_requests := c.stop_requests + 1 }

/-- The call `websocket_parser.SendPing()` on the external codec. -/
def SendPing (c : connection) : connection :=
  { c with ws_pings := c.ws_pings + 1 }

/-! ## Timers -/

/-- The function `connection::set_read_timeout`. -/
def set_read_timeout (c : connection) : connection :=
  { c with read_timer_armed := true }

/-- The function `connection::cancel_read_timeout`. -/
def cancel_read_timeout (c : connection) : connection :=
  { c with read_timer_armed := false }

/-- The function `connection::reset_read_timeout`. -/
def reset_read_timeout (c : connection) : connection :=
  set_read_timeout (cancel_read_timeout c)

/-- The function `connection::set_abandoned_timeout`. -/
def set_abandoned_timeout (c : connection) : connection :=
  { c with abandoned_timer_armed := true }

/-- The function `connection::cancel_abandoned_timeout`. -/
def cancel_abandoned_timeout (c : connection) : connection :=
  { c with abandoned_timer_armed := false }

/-- The function `connection::reset_abandoned_timeout`. -/
def reset_abandoned_timeout (c : connection) : connection :=
  set_abandoned_timeout (cancel_abandoned_timeout c)

/-- The function `connection::handle_read_timeout`. -/
def handle_read_timeout (error : error_code) (c : connection) : connection :=
  if !error.is_set && c.keepalive_ && (c.connection_type == .connection_websocket) then
    SendPing c
  else if !error.is_set then
    connection_manager_stop c
  else if error != .operation_aborted then
    connection_manager_stop c
  else
    c

/-- The function `connection::handle_abandoned_timeout`. -/
def handle_abandoned_timeout (error : error_code) (c : connection) : connection :=
  if error != .operation_aborted then connection_manager_stop c else c

/-! ## The write queue -/

/-- The function `connection::SocketWrite`. -/
def SocketWrite (buf : Str) (c : connection) : connection :=
  async_write .handle_write buf { c with write_in_progress := true, write_buffer := buf }

/-- The function `connection::MyWrite`. -/
def MyWrite (buf : Str) (c : connection) : connection :=
  match c.connection_type with
  | .connection_http | .connection_websocket =>
    if c.write_in_progress then
      { c with writeQ := c.writeQ ++ [buf] }
    else
      SocketWrite buf c
  | .connection_websocket_closing => c

/-- The function `connection::WS_Write`. -/
def WS_Write (env : Env) (resp : Str) (c : connection) : connection :=
  if c.connection_type == .connection_websocket then
    MyWrite (env.create_text_frame resp) c
  else
    { c with writeQ := c.writeQ ++ [env.create_text_frame resp] }

/-- The function `connection::handle_write`. -/
def handle_write (error : error_code) (c : connection) : connection :=
  let c := { c with write_buffer := [], write_in_progress := false }
  match error.is_set, c.writeQ with
  | false, buf :: rest =>
    let c := SocketWrite buf { c with writeQ := rest }
    if c.keepalive_ then reset_abandoned_timeout c else c
  | _, _ =>
    if error == .operation_aborted then
      connection_manager_stop c
    else if error.is_set then
      connection_manager_stop c
    else if c.keepalive_ then
      reset_abandoned_timeout { c with status_ := .ENDING_WRITE }
    else
      connection_manager_stop c

/-! ## Strings -/

/-- The search `std::string::find(pat)`: the least position at which `pat`
occurs, `none` standing for `npos`. -/
def find (pat : Str) : Str → Option Nat
  | [] => if pat.isEmpty then some 0 else none
  | c :: cs =>
    if pat.isPrefixOf (c :: cs) then some 0
    else (find pat cs).map (· + 1)

/-- The search `std::string::find_last_of(ch)`. -/
def find_last_of (ch : Char) (s : Str) : Option Nat :=
  (List.range s.length).reverse.find? (fun i => s.get? i == some ch)

/-- The comparison `boost::iequals`. -/
def iequals (a b : Str) : Bool :=
  a.map Char.toLower == b.map Char.toLower

/-- The conversion `std::to_string` on an unsigned number. -/
def to_string_nat (n : Nat) : Str := (Nat.repr n).toList

/-- The conversion `std::to_string` on a signed number. -/
def to_string_int (n : Int) : Str := (Int.repr n).toList

/-! ## Replies -/

/-- Modelled from the spec: `reply::stock_reply` lives in `reply.cpp`, outside
the sources at hand.  The glossary calls a stock reply "a canned response
body+headers for a standard status code"; the canned headers and body come from
the environment. -/
def stock_reply (env : Env) (status : status_type) : reply :=
  { status := status, headers := (env.canned status).1, content := (env.canned status).2 }

/-- Modelled from the spec: `reply::add_header_if_absent` lives in `reply.cpp`,
outside the sources at hand.  The header is added "only if absent": a reply that
already has a header of that name is left as it is. -/
def add_header_if_absent (rep : reply) (name value : Str) : reply :=
  if rep.headers.any (fun h => h.name == name) then rep
  else { rep with headers := rep.headers ++ [{ name := name, value := value }] }

/-- Modelled from the spec: `reply::add_header_content_type` lives in
`reply.cpp`, outside the sources at hand; it adds the header "`Content-Type`
from extension via MIME-type table". -/
def add_header_content_type (env : Env) (rep : reply) (mime_type : Str) : reply :=
  env.add_header rep "Content-Type".toList mime_type

/-- Modelled from the spec: `reply::add_header_attachment` lives in `reply.cpp`,
outside the sources at hand; it adds the header
"`Content-Disposition: attachment; filename="<attachment_name>"`". -/
def add_header_attachment (env : Env) (rep : reply) (attachment_name : Str) : reply :=
  env.add_header rep "Content-Disposition".toList
    ("attachment; filename=\"".toList ++ attachment_name ++ "\"".toList)

/-! ## Reading -/

/-- The function `connection::read_more`. -/
def read_more (c : connection) : connection :=
  let c := reset_read_timeout { c with status_ := .WAITING_READ }
  { c with pending_reads := c.pending_reads + 1 }

/-- The function `connection::start`.  The arguments are what
`socket().remote_endpoint(ec)` and `socket().local_endpoint(ec)` give: the
address string and port of the endpoint, or `none` when `ec` is set. -/
def start (remote_endpoint local_endpoint : Option (Str × Nat)) (c : connection) :
    connection :=
  match remote_endpoint with
  | none => connection_manager_stop c
  | some (raddr, rport) =>
    let c := { c with host_remote_endpoint_address_ := raddr
                      host_remote_endpoint_port_ := to_string_nat rport }
    match local_endpoint with
    | none => connection_manager_stop c
    | some (laddr, lport) =>
      let c := { c with host_local_endpoint_address_ := laddr
                        host_local_endpoint_port_ := to_string_nat lport }
      let c := set_abandoned_timeout c
      if c.secure_ then
        { c with status_ := .WAITING_HANDSHAKE, pending_handshake := true }
      else
        read_more c

/-- The function `connection::stop`. -/
def stop (c : connection) : connection :=
  let c := match c.connection_type with
    | .connection_websocket => { c with ws_started := false }
    | .connection_websocket_closing => { c with ws_started := false }
    | .connection_http => c
  let c := cancel_read_timeout (cancel_abandoned_timeout c)
  { c with socket_open := false }

/-- The function `connection::handle_timeout`. -/
def handle_timeout (error : error_code) (c : connection) : connection :=
  if error != .operation_aborted then
    match c.connection_type with
    | .connection_http =>
      let c := cancel_read_timeout (cancel_abandoned_timeout c)
      { c with socket_open := false }
    | .connection_websocket => SendPing c
    | .connection_websocket_closing => c
  else c

/-- The function `connection::handle_handshake`. -/
def handle_handshake (error : error_code) (c : connection) : connection :=
  let c := { c with status_ := .ENDING_HANDSHAKE }
  if c.secure_ then
    if !error.is_set then read_more c else connection_manager_stop c
  else c

/-! ## Sending a file -/

/-- The call `sendfile_.open(filename, in | binary)`: opening fails, setting
`failbit`, when the stream is already open or the file cannot be opened; on
success the state flags are cleared. -/
def ifstream.open (env : Env) (filename : Str) (f : ifstream) : ifstream :=
  if f.is_open then { f with failbit := true }
  else match env.file_content filename with
    | some data => { is_open := true, rest := data, eofbit := false, failbit := false }
    | none => { f with failbit := true }

/-- The size `sendfile_.tellg()` reports after `seekg(0, end)`, the position
being moved back by `seekg(0, beg)`: `-1` on a stream whose `failbit` is set. -/
def ifstream.total_size (f : ifstream) : Int :=
  if f.failbit then -1 else (f.rest.length : Int)

/-- The call `sendfile_.read(buf, n)`: the bytes read (their number is
`gcount()`) and the stream after the call. -/
def ifstream.read (n : Nat) (f : ifstream) : Str × ifstream :=
  if f.eofbit || f.failbit then ([], { f with failbit := true })
  else if f.rest.length < n then
    (f.rest, { f with rest := [], eofbit := true, failbit := true })
  else
    (f.rest.take n, { f with rest := f.rest.drop n })

/-- The call `sendfile_.close()`. -/
def ifstream.close (f : ifstream) : ifstream :=
  { f with is_open := false }

/-- The function `connection::handle_write_file`. -/
def handle_write_file (env : Env) (error : error_code) (c : connection) : connection :=
  if !error.is_set && c.sendfile_.is_open && !c.sendfile_.eofbit then
    let c := { c with send_buffer_ := true }
    let (data, f) := c.sendfile_.read env.FILE_SEND_BUFFER_SIZE
    let c := { c with sendfile_ := f }
    if data.length ≤ 0 then
      c
    else
      async_write .handle_write_file data c
  else
    let c := if c.sendfile_.is_open then { c with sendfile_ := c.sendfile_.close } else c
    connection_manager_stop { c with send_buffer_ := false }

/-- The function `connection::send_file`: the returned flag, the reply left in
`rep`, and the connection. -/
def send_file (env : Env) (filename attachment_name : Str) (c : connection) :
    Bool × reply × connection :=
  let c := { c with send_file_calls := c.send_file_calls ++ [(filename, attachment_name)] }
  let rep := stock_reply env .ok
  let c := { c with sendfile_ := c.sendfile_.open env filename }
  if !c.sendfile_.is_open then
    (false, stock_reply env .not_found, c)
  else
    let total_size := c.sendfile_.total_size
    let rep := env.add_header rep "Cache-Control".toList "max-age=0, private".toList
    let rep := env.add_header rep "Accept-Ranges".toList "bytes".toList
    let rep := env.add_header rep "Date".toList env.web_time_now
    let rep := env.add_header rep "Last-Modified".toList (env.web_time_of_file filename)
    let rep := env.add_header rep "Server".toList "Apache/2.2.22".toList
    let rep := match find_last_of '.' filename with
      | some last_dot_pos =>
        add_header_content_type env rep
          (env.extension_to_type (filename.drop (last_dot_pos + 1)))
      | none => rep
    let rep := add_header_attachment env rep attachment_name
    let rep := env.add_header rep "Content-Length".toList (to_string_int total_size)
    let headers := env.to_string rep "GET".toList
    let c := { c with write_buffer := headers }
    (true, rep, async_write .handle_write_file headers c)

/-! ## Handling a completed read -/

/-- What the collaborators of `handle_read` produce during one call. -/
structure read_input where
  /-- Result of `request_parser_.parse` on the buffered bytes. -/
  parse_result : tribool
  /-- The request as the parser leaves it. -/
  request_ : request
  /-- The reply `request_handler_.handle_request` leaves in `reply_`. -/
  handle_request : request → reply
  /-- Result of `websocket_parser.parse`. -/
  ws_result : tribool
  /-- The value `websocket_parser.parse` leaves in `bytes_consumed`. -/
  ws_bytes_consumed : Nat
  /-- The value `websocket_parser.parse` leaves in `keepalive_`. -/
  ws_keepalive : Bool

/-- Lines 408-424 of `handle_read`: keep-alive is decided from the request and
the request is filled with the endpoints. -/
def prepare_request (request_ : request) (c : connection) : connection × request :=
  -- `sizeread` is `begin - begin`, so `_buf.consume(sizeread)` consumes nothing
  let c := { c with _buf := c._buf - 0 }
  let keepalive :=
    match request_.connection_header with
    | some pConnection => iequals pConnection "Keep-Alive".toList
    | none => false
  let c := { c with keepalive_ := keepalive }
  let request_ := { request_ with keep_alive := c.keepalive_
                                  host_remote_address := c.host_remote_endpoint_address_
                                  host_local_address := c.host_local_endpoint_address_ }
  let request_ :=
    if request_.host_remote_address.take 7 == "::ffff:".toList then
      { request_ with host_remote_address := request_.host_remote_address.drop 7 }
    else request_
  let request_ :=
    if request_.host_local_address.take 7 == "::ffff:".toList then
      { request_ with host_local_address := request_.host_local_address.drop 7 }
    else request_
  let request_ := { request_ with host_remote_port := c.host_remote_endpoint_port_
                                  host_local_port := c.host_local_endpoint_port_ }
  ({ c with host_last_request_uri_ := request_.uri }, request_)

/-- The string literal `"\r\n"`. -/
def crlf : Str := ['\r', '\n']

/-- Lines 476-485 of `handle_read`: the content of a `download_file` reply is
split at the first `"\r\n"` into file name and attachment name; `none` when
there is no `"\r\n"`. -/
def split_download (filename_attachment : Str) : Option (Str × Str) :=
  match find crlf filename_attachment with
  | none => none
  | some npos => some (filename_attachment.take npos, filename_attachment.drop (npos + 2))

/-- Lines 466-489 of `handle_read`: the upgrade and download cases.  The flag
is true when `send_file` returned true and `handle_read` returns at once. -/
def dispatch_status (env : Env) (reply_ : reply) (c : connection) :
    Bool × reply × connection :=
  if reply_.status = .switching_protocols then
    (false, reply_, { c with connection_type := .connection_websocket
                             keepalive_ := true
                             ws_started := true })
  else if reply_.status = .download_file then
    match split_download reply_.content with
    | none => (false, stock_reply env .internal_server_error, c)
    | some (filename, attachment) => send_file env filename attachment c
  else
    (false, reply_, c)

/-- Lines 491-497 of `handle_read`: the keep-alive headers. -/
def add_keep_alive (request_ : request) (reply_ : reply) (c : connection) : reply :=
  if request_.keep_alive &&
      (reply_.status == .ok || reply_.status == .no_content
        || reply_.status == .not_modified) then
    let reply_ := add_header_if_absent reply_ "Connection".toList "Keep-Alive".toList
    add_header_if_absent reply_ "Keep-Alive".toList
      ("max=".toList ++ to_string_nat c.default_max_requests_
        ++ ", timeout=".toList ++ to_string_nat c.read_timeout_)
  else reply_

/-- Lines 499-508 of `handle_read`: the reply is written, the kind is set for
an upgrade, and the next read is started for a keep-alive connection. -/
def write_reply (env : Env) (request_ : request) (reply_ : reply) (c : connection) :
    connection :=
  let c := MyWrite (env.to_string reply_ request_.method) c
  let c := if reply_.status = .switching_protocols then
      { c with connection_type := .connection_websocket } else c
  let c := if c.keepalive_ then read_more c else c
  { c with status_ := .WAITING_WRITE }

/-- The HTTP case of `handle_read` for a complete request, up to the call of
`MyWrite` at line 499: whether `handle_read` has returned after `send_file`,
the request, the reply about to be serialized, and the connection. -/
def before_write (env : Env) (inp : read_input) (c : connection) :
    Bool × request × reply × connection :=
  let (c, request_) := prepare_request inp.request_ c
  let reply_ := inp.handle_request request_
  let (sent, reply_, c) := dispatch_status env reply_ c
  if sent then (true, request_, reply_, c)
  else (false, request_, add_keep_alive request_ reply_ c, c)

/-- The case `connection_http` of the switch in `handle_read` (lines 375-524). -/
def handle_read_http (env : Env) (inp : read_input) (c : connection) : connection :=
  match inp.parse_result with
  | .true_value =>
    let (sent, request_, reply_, c) := before_write env inp c
    if sent then c else write_reply env request_ reply_ c
  | .false_value =>
    let c := { c with keepalive_ := false }
    let reply_ := stock_reply env .bad_request
    let c := MyWrite (env.to_string reply_ inp.request_.method) c
    if c.keepalive_ then read_more c else c
  | .indeterminate_value => read_more c

/-- The cases `connection_websocket` and `connection_websocket_closing` of the
switch in `handle_read` (lines 525-545). -/
def handle_read_websocket (inp : read_input) (c : connection) : connection :=
  let c := { c with keepalive_ := inp.ws_keepalive
                    _buf := c._buf - inp.ws_bytes_consumed }
  match inp.ws_result with
  | .true_value =>
    if c.keepalive_ then read_more c
    else { c with connection_type := .connection_websocket_closing }
  | _ => read_more c

/-- The function `connection::handle_read`. -/
def handle_read (env : Env) (error : error_code) (bytes_transferred : Nat)
    (inp : read_input) (c : connection) : connection :=
  let c := cancel_read_timeout { c with status_ := .READING }
  if !error.is_set && bytes_transferred > 0 then
    let c := { c with _buf := c._buf + bytes_transferred }
    match c.connection_type with
    | .connection_http => handle_read_http env inp c
    | .connection_websocket | .connection_websocket_closing => handle_read_websocket inp c
  else if error == .eof then
    connection_manager_stop c
  else if error != .operation_aborted then
    connection_manager_stop c
  else c

/-! ## The connection as an event system -/

/-- The operations that the I/O context, the connection manager and the
WebSocket codec invoke on a connection. -/
inductive event where
  | start (remote_endpoint local_endpoint : Option (Str × Nat))
  | handle_handshake (error : error_code)
  | handle_read (error : error_code) (bytes_transferred : Nat) (inp : read_input)
  | MyWrite (buf : Str)
  | WS_Write (resp : Str)
  | handle_write (error : error_code)
  | handle_write_file (error : error_code)
  | handle_read_timeout (error : error_code)
  | handle_abandoned_timeout (error : error_code)
  | handle_timeout (error : error_code)
  | stop

/-- The effect of an operation on the connection. -/
def event.apply (env : Env) : event → connection → connection
  | .start r l, c => http.server.start r l c
  | .handle_handshake error, c => http.server.handle_handshake error c
  | .handle_read error n inp, c => http.server.handle_read env error n inp c
  | .MyWrite buf, c => http.server.MyWrite buf c
  | .WS_Write resp, c => http.server.WS_Write env resp c
  | .handle_write error, c => http.server.handle_write error c
  | .handle_write_file error, c => http.server.handle_write_file env error c
  | .handle_read_timeout error, c => http.server.handle_read_timeout error c
  | .handle_abandoned_timeout error, c => http.server.handle_abandoned_timeout error c
  | .handle_timeout error, c => http.server.handle_timeout error c
  | .stop, c => http.server.stop c

/-- A completion handler can only run for an operation that was submitted and
has not completed yet; the other operations can be invoked at any time. -/
def event.enabled : event → connection → Bool
  | .handle_handshake _, c => c.pending_handshake
  | .handle_read _ _ _, c => decide (0 < c.pending_reads)
  | .handle_write _, c => c.pending_writes.contains .handle_write
  | .handle_write_file _, c => c.pending_writes.contains .handle_write_file
  | _, _ => true

/-- The I/O context takes a completed operation off its books before it runs
the completion handler.  A wait on a timer is one-shot: when its handler runs
for any reason other than a cancellation, the timer is no longer scheduled; the
handler of a cancelled wait leaves the books alone, since the timer may have
been scheduled again in the meantime. -/
def event.complete : event → connection → connection
  | .handle_handshake _, c => { c with pending_handshake := false }
  | .handle_read _ _ _, c => { c with pending_reads := c.pending_reads - 1 }
  | .handle_write _, c => { c with pending_writes := c.pending_writes.erase .handle_write }
  | .handle_write_file _, c =>
    { c with pending_writes := c.pending_writes.erase .handle_write_file }
  | .handle_read_timeout error, c =>
    if error != .operation_aborted then { c with read_timer_armed := false } else c
  | .handle_abandoned_timeout error, c =>
    if error != .operation_aborted then { c with abandoned_timer_armed := false } else c
  | _, c => c

/-- One step of the event system: `none` when the event cannot occur. -/
def step (env : Env) (e : event) (c : connection) : Option connection :=
  if e.enabled c then some (e.apply env (e.complete c)) else none

/-- A sequence of steps, oldest event first. -/
def run (env : Env) : List event → connection → Option connection
  | [], c => some c
  | e :: es, c => (step env e c).bind (run env es)

/-- The events of the write queue: a call of `MyWrite`, or the completion of a
write without error. -/
def event.is_write_event : event → Bool
  | .MyWrite _ => true
  | .handle_write .success => true
  | _ => false

/-- The buffers passed to `MyWrite` in a sequence of events, in call order. -/
def written_buffers : List event → List Str
  | [] => []
  | .MyWrite buf :: es => buf :: written_buffers es
  | _ :: es => written_buffers es

/-- An entry of `async_writes` for a write submitted by `SocketWrite`. -/
def socket_write_entry (buf : Str) : write_handler × Str := (.handle_write, buf)

/-- The write queue is consistent: either nothing is in flight and nothing is
queued, or exactly one write submitted by `SocketWrite` is in flight. -/
def write_queue_consistent (c : connection) : Prop :=
  (c.connection_type = .connection_http ∨ c.connection_type = .connection_websocket) ∧
  ((c.write_in_progress = false ∧ c.pending_writes = [] ∧ c.writeQ = []) ∨
   (c.write_in_progress = true ∧ c.pending_writes = [.handle_write]))

/-- The position of a connection kind in the order Http, Websocket,
WebsocketClosing. -/
def kind_rank : ConnectionType → Nat
  | .connection_http => 0
  | .connection_websocket => 1
  | .connection_websocket_closing => 2

/-! ## Concrete inputs -/

/-- A small environment: replies are serialized as method, a space and the
content; `add_header` appends; chunks of four bytes; three files. -/
def env0 : Env :=
  { FILE_SEND_BUFFER_SIZE := 4
    to_string := fun rep method => method ++ [' '] ++ rep.content
    canned := fun _ => ([{ name := "Content-Type".toList, value := "text/html".toList }],
      "stock".toList)
    add_header := fun rep name value =>
      { rep with headers := rep.headers ++ [{ name := name, value := value }] }
    web_time_now := "now".toList
    web_time_of_file := fun _ => "then".toList
    extension_to_type := fun _ => "application/octet-stream".toList
    create_text_frame := fun resp => 'T' :: resp
    file_content := fun name =>
      if name = "/tmp/a.bin".toList then some "abcdef".toList
      else if name = "/tmp/empty".toList then some []
      else if name = "/tmp/four".toList then some "abcd".toList
      else none }

/-- A plain connection right after construction, with a read timeout of 30 s. -/
def fresh : connection := connection.construct false 30

/-- Three writes, the second and third issued while the first is in flight,
and two completions. -/
def three_writes : List event :=
  [.MyWrite ['a'], .MyWrite ['b'], .handle_write .success, .MyWrite ['c'],
   .handle_write .success]

/-- A connection with a write in flight and one buffer queued. -/
def busy : connection :=
  { fresh with write_in_progress := true, write_buffer := ['a'], writeQ := [['b']]
               async_writes := [(.handle_write, ['a'])], pending_writes := [.handle_write] }

/-- A WebSocket connection with keep-alive. -/
def ws_alive : connection :=
  { fresh with connection_type := .connection_websocket, keepalive_ := true }

/-- A request without a `Connection` header. -/
def plain_request : request :=
  { method := "GET".toList, uri := "/x".toList, connection_header := none, keep_alive := false
    host_remote_address := [], host_local_address := [], host_remote_port := []
    host_local_port := [] }

/-- A request with the header `Connection: keep-alive`. -/
def keep_alive_request : request :=
  { plain_request with connection_header := some "keep-alive".toList }

/-- A handler reply without headers. -/
def bare_reply (status : status_type) (content : Str) : reply :=
  { status := status, headers := [], content := content }

/-- The collaborators of `handle_read` when the parser reports the complete
request `req` and the handler answers `rep`. -/
def http_input (req : request) (rep : reply) : read_input :=
  { parse_result := .true_value, request_ := req, handle_request := fun _ => rep
    ws_result := .indeterminate_value, ws_bytes_consumed := 0, ws_keepalive := false }

/-- The collaborators of `handle_read` when the request parser reports a
malformed request. -/
def malformed_input : read_input :=
  { http_input plain_request (bare_reply .ok []) with parse_result := .false_value }

/-- The collaborators of `handle_read` when the WebSocket parser reports a
complete packet. -/
def ws_input (consumed : Nat) (keepalive : Bool) : read_input :=
  { http_input plain_request (bare_reply .ok []) with
    ws_result := .true_value, ws_bytes_consumed := consumed, ws_keepalive := keepalive }

/-- The endpoint of a peer. -/
def peer : Option (Str × Nat) := some ("::ffff:10.0.0.7".toList, 4711)

/-- The endpoint of the server. -/
def host : Option (Str × Nat) := some ("10.0.0.1".toList, 8080)

/-- An upgrade request answered with 101, then a close frame. -/
def upgrade_then_close : List event :=
  [.start peer host,
   .handle_read .success 100 (http_input plain_request (bare_reply .switching_protocols [])),
   .handle_read .success 2 (ws_input 2 false)]

/-- Whether a reply carries a header of the given name. -/
def has_header (name : Str) (rep : reply) : Bool :=
  rep.headers.any (fun h => h.name == name)

/-- The statuses `reply::ok` (200), `reply::no_content` (204) and
`reply::not_modified` (304). -/
def keep_alive_status (s : status_type) : Prop :=
  s = .ok ∨ s = .no_content ∨ s = .not_modified

/-- A keep-alive request answered with 200, then, while that reply is still
being written, a second request answered with a download marker. -/
def overlapping_writes : List event :=
  [.start peer host,
   .handle_read .success 50 (http_input keep_alive_request (bare_reply .ok "hi".toList)),
   .handle_read .success 50
     (http_input keep_alive_request (bare_reply .download_file "/tmp/a.bin\r\nreport.bin".toList))]

/-- A request answered with the download marker `content`, followed by a
number of error-free completions of file writes. -/
def download (content : Str) (completions : Nat) : List event :=
  [.start peer host,
   .handle_read .success 50 (http_input plain_request (bare_reply .download_file content))]
  ++ List.replicate completions (.handle_write_file .success)

/-- A request answered with a well-formed download marker. -/
def download_input : read_input :=
  http_input plain_request (bare_reply .download_file "/tmp/a.bin\r\nreport.bin".toList)

/-- A keep-alive request answered with 200. -/
def keep_alive_input : read_input :=
  http_input keep_alive_request (bare_reply .ok "hi".toList)

/-- A request answered with a download marker, then a call of `MyWrite` while
the header block is still being written. -/
def write_during_download : List event :=
  [.start peer host,
   .handle_read .success 50 download_input,
   .MyWrite ['x']]

/-- The events of the write queue with any completion: a call of `MyWrite`, or
the completion of a write with or without error. -/
def event.is_queue_event : event → Bool
  | .MyWrite _ => true
  | .handle_write _ => true
  | _ => false

/-- The invariant as the specification words it: `write_in_progress` is true
exactly when `write_buffer` is non-empty and a submitted write is outstanding. -/
def write_in_progress_claim (c : connection) : Prop :=
  c.write_in_progress = true ↔ (c.write_buffer ≠ [] ∧ c.pending_writes ≠ [])

/-- Either no write is in progress and none is outstanding, or a write is in
progress, exactly one write submitted by `SocketWrite` is outstanding, it is
the last one submitted, and `write_buffer` holds its buffer. -/
def socket_write_outstanding (c : connection) : Prop :=
  (c.write_in_progress = false ∧ c.pending_writes = []) ∨
  (c.write_in_progress = true ∧ c.pending_writes = [.handle_write] ∧
    ∃ buf, c.async_writes.getLast? = some (.handle_write, buf) ∧ c.write_buffer = buf)

/-- A connection whose status is `WAITING_READ` has the read timer armed. -/
def timer_status_ok (c : connection) : Prop :=
  c.status_ = .WAITING_READ → c.read_timer_armed = true

/-- The start of a plain connection and a complete keep-alive request. -/
def keep_alive_dispatch : List event :=
  [.start peer host, .handle_read .success 50 keep_alive_input]

/-- The start of a plain connection followed by `stop`. -/
def start_then_stop : List event :=
  [.start peer host, .stop]

/-- The operations `start`, `handle_read`, `handle_write` and
`handle_handshake`. -/
def event.is_lifecycle_event : event → Bool
  | .start _ _ => true
  | .handle_handshake _ => true
  | .handle_read _ _ _ => true
  | .handle_write _ => true
  | _ => false

/-- Two writes, the first of an empty buffer, and a completion with an error. -/
def writes_then_error : List event :=
  [.MyWrite [], .MyWrite ['b'], .handle_write .other_error]

end http.server

/-!
# The logger (`main/Logger.cpp`)

A shallow embedding of `CLogger`.  The object becomes the record `CLogger`;
what it prints, writes and sends to syslog is recorded in fields of the record.
The enumerators of `Logger.h`, which is not among the sources at hand, are the
parameters `LogConsts`.  The branches for POSIX (`WIN32` undefined) and for a
release build (`_DEBUG` undefined) are the ones embedded.
-/

namespace logger

/-- Model of `std::string`. -/
abbrev Str := List Char

/-- The constant `MAX_LOG_LINE_BUFFER`. -/
def MAX_LOG_LINE_BUFFER : Nat := 100

/-- The constant `MAX_LOG_LINE_LENGTH`. -/
def MAX_LOG_LINE_LENGTH : Nat := 2048 * 3

/-- The constant `MAX_ACLFLOG_LINES`. -/
def MAX_ACLFLOG_LINES : Nat := 100000

/-- The enumerators of `_eLogLevel`, `_eDebugLevel` and `_eLogACLF` that the
logger uses; their values are given in `Logger.h`. -/
structure LogConsts where
  LOG_NORM : Nat
  LOG_STATUS : Nat
  LOG_ERROR : Nat
  LOG_DEBUG_INT : Nat
  LOG_ALL : Nat
  DEBUG_NORM : Nat
  DEBUG_WEBSERVER : Nat
  DEBUG_THREADIDS : Nat
  LOG_ACLF_ENABLED : Nat
  LOG_ACLF_FILE : Nat
  LOG_ACLF_SYSLOG : Nat

/-- The globals `g_bRunAsDaemon` and `g_bUseSyslog`. -/
structure Globals where
  g_bRunAsDaemon : Bool
  g_bUseSyslog : Bool

/-- What the operating system gives during one call into the logger. -/
structure os_call where
  /-- The value of `mytime(nullptr)`. -/
  now : Int
  /-- The value of `TimeToString(nullptr, TF_DateTimeMs)`. -/
  time_string : Str
  /-- The value of `pthread_self()`. -/
  thread_id : Nat
  /-- Whether opening a file succeeds. -/
  open_ok : Bool

/-- The record `_tLogLineStruct`. -/
structure _tLogLineStruct where
  logtime : Int
  level : Nat
  logmessage : Str
  deriving DecidableEq, Repr

/-- The priorities of `syslog.h` that the logger uses. -/
inductive syslog_priority where
  | LOG_INFO
  | LOG_ERR
  | LOG_NOTICE
  | LOG_INFO_LOCAL1
  deriving DecidableEq, Repr

/-- The logger object.  The first group of fields are the C++ members, the map
`m_lastlog` being the list of its entries in ascending key order; the second
group records the output of the logger. -/
structure CLogger where
  m_log_flags : Nat
  m_debug_flags : Nat
  m_aclf_flags : Nat
  m_bInSequenceMode : Bool
  m_bEnableLogThreadIDs : Bool
  m_bEnableLogTimestamps : Bool
  m_bEnableErrorsToNotificationSystem : Bool
  m_LastLogNotificationsSend : Int
  m_notification_log : List _tLogLineStruct
  m_lastlog : List (Nat × List _tLogLineStruct)
  /-- Whether `m_outputfile` is open. -/
  m_outputfile : Bool
  /-- The pointer `m_aclflogfile`; `none` is `nullptr`. -/
  m_aclflogfile : Option Str
  /-- Whether `m_aclfoutputfile` is open. -/
  m_aclfoutputfile : Bool
  m_aclf_loggedlinescnt : Nat
  /-- The lines written to `std::cout`, oldest first. -/
  console : List Str
  /-- The lines written to `m_outputfile`, oldest first. -/
  outputfile_lines : List Str
  /-- The calls of `syslog`, oldest first. -/
  syslog_lines : List (syslog_priority × Str)
  /-- Number of calls of `m_mainworker.ForceLogNotificationCheck()`. -/
  notification_checks : Nat
  /-- Number of times `m_aclfoutputfile` has been opened. -/
  aclf_opens : Nat
  /-- Number of times `m_aclfoutputfile` has been closed. -/
  aclf_closes : Nat
  /-- The lines written to `m_aclfoutputfile`, oldest first, each with the
  value of `aclf_opens` at the time of writing. -/
  aclf_lines : List (Nat × Str)
  deriving DecidableEq, Repr

/-! ## The map `m_lastlog` -/

/-- The lookup `m_lastlog.find(level)`; `none` is `m_lastlog.end()`. -/
def map_find (level : Nat) : List (Nat × List _tLogLineStruct) → Option (List _tLogLineStruct)
  | [] => none
  | (k, v) :: rest => if k = level then some v else map_find level rest

/-- A change `f` of the deque stored under the key `level`. -/
def map_modify (level : Nat) (f : List _tLogLineStruct → List _tLogLineStruct) :
    List (Nat × List _tLogLineStruct) → List (Nat × List _tLogLineStruct)
  | [] => []
  | (k, v) :: rest =>
    if k = level then (k, f v) :: rest else (k, v) :: map_modify level f rest

/-- The insertion of a new key, in key order. -/
def map_insert (level : Nat) (d : List _tLogLineStruct) :
    List (Nat × List _tLogLineStruct) → List (Nat × List _tLogLineStruct)
  | [] => [(level, d)]
  | (k, v) :: rest =>
    if level < k then (level, d) :: (k, v) :: rest else (k, v) :: map_insert level d rest

/-- The access `m_lastlog[level]` followed by a change `f` of the deque: an
absent key is inserted with an empty deque first. -/
def map_update (level : Nat) (f : List _tLogLineStruct → List _tLogLineStruct)
    (m : List (Nat × List _tLogLineStruct)) : List (Nat × List _tLogLineStruct) :=
  match map_find level m with
  | some _ => map_modify level f m
  | none => map_insert level (f []) m

/-! ## Flags -/

/-- The function `CLogger::SetLogFlags(const uint32_t)`. -/
def SetLogFlags (iFlags : Nat) (lg : CLogger) : CLogger :=
  { lg with m_log_flags := iFlags }

/-- The function `CLogger::SetDebugFlags(const uint32_t)`. -/
def SetDebugFlags (iFlags : Nat) (lg : CLogger) : CLogger :=
  { lg with m_debug_flags := iFlags }

/-- The function `CLogger::SetACLFlogFlags`. -/
def SetACLFlogFlags (iFlags : Nat) (lg : CLogger) : CLogger :=
  { lg with m_aclf_flags := lg.m_aclf_flags ||| iFlags }

/-- The function `CLogger::IsLogLevelEnabled`. -/
def IsLogLevelEnabled (level : Nat) (lg : CLogger) : Bool :=
  lg.m_log_flags &&& level != 0

/-- The function `CLogger::IsDebugLevelEnabled`. -/
def IsDebugLevelEnabled (k : LogConsts) (level : Nat) (lg : CLogger) : Bool :=
  if lg.m_log_flags &&& k.LOG_DEBUG_INT == 0 then false
  else lg.m_debug_flags &&& level != 0

/-- The function `CLogger::IsACLFlogEnabled`. -/
def IsACLFlogEnabled (k : LogConsts) (lg : CLogger) : Bool :=
  if lg.m_aclf_flags &&& k.LOG_ACLF_ENABLED == 0 then false else true

/-- The function `CLogger::EnableLogTimestamps`. -/
def EnableLogTimestamps (bEnableTimestamps : Bool) (lg : CLogger) : CLogger :=
  { lg with m_bEnableLogTimestamps := bEnableTimestamps }

/-- The logger right after the constructor `CLogger::CLogger()`.  The members
that the constructor does not assign (`m_aclf_flags`, `m_aclf_loggedlinescnt`,
`m_aclflogfile`) are zero. -/
def CLogger.construct (k : LogConsts) : CLogger :=
  SetDebugFlags k.DEBUG_NORM (SetLogFlags (k.LOG_NORM ||| k.LOG_STATUS ||| k.LOG_ERROR)
    { m_log_flags := 0
      m_debug_flags := 0
      m_aclf_flags := 0
      m_bInSequenceMode := false
      m_bEnableLogThreadIDs := false
      m_bEnableLogTimestamps := true
      m_bEnableErrorsToNotificationSystem := false
      m_LastLogNotificationsSend := 0
      m_notification_log := []
      m_lastlog := []
      m_outputfile := false
      m_aclflogfile := none
      m_aclfoutputfile := false
      m_aclf_loggedlinescnt := 0
      console := []
      outputfile_lines := []
      syslog_lines := []
      notification_checks := 0
      aclf_opens := 0
      aclf_closes := 0
      aclf_lines := [] })

/-! ## Emitting a line -/

/-- The text `std::setfill('0') << std::setw(4) << std::hex << n` produces. -/
def hex_width4 (n : Nat) : Str :=
  List.replicate (4 - (Nat.toDigits 16 n).length) '0' ++ Nat.toDigits 16 n

/-- The text `vsnprintf(cbuffer, sizeof(cbuffer), ...)` leaves in `cbuffer`
when the formatted text is `text`. -/
def vsnprintf (text : Str) : Str := text.take (MAX_LOG_LINE_LENGTH - 1)

/-- Lines 277-300 of `Log`: the line `szIntLog`. -/
def format_line (k : LogConsts) (os : os_call) (level : Nat) (cbuffer : Str) (lg : CLogger) :
    Str :=
  (if lg.m_bEnableLogTimestamps then os.time_string ++ "  ".toList else []) ++
  (if (lg.m_log_flags &&& k.LOG_DEBUG_INT != 0) && (lg.m_debug_flags &&& k.DEBUG_THREADIDS != 0)
    then "[".toList ++ hex_width4 os.thread_id ++ "] ".toList else []) ++
  (if level &&& k.LOG_STATUS != 0 then "Status: ".toList ++ cbuffer
   else if level &&& k.LOG_ERROR != 0 then "Error: ".toList ++ cbuffer
   else if level &&& k.LOG_DEBUG_INT != 0 then "Debug: ".toList ++ cbuffer
   else cbuffer)

/-- The call `s.substr(pos)`: `none` when it throws `std::out_of_range`, which
it does when `pos` is greater than the size of `s`. -/
def substr_from (pos : Nat) (s : Str) : Option Str :=
  if pos > s.length then none else some (s.drop pos)

/-- The escape sequence `"\033[1;31m"`. -/
def ansi_red : Str := [Char.ofNat 27, '[', '1', ';', '3', '1', 'm']

/-- The escape sequence `"\033[0;0m"`. -/
def ansi_reset : Str := [Char.ofNat 27, '[', '0', ';', '0', 'm']

/-- Lines 320-327 of `Log`: the text written to `std::cout` for the line
`szIntLog`; `none` when `substr` throws. -/
def console_text (k : LogConsts) (level : Nat) (szIntLog : Str) : Option Str :=
  if level != k.LOG_ERROR then some szIntLog
  else
    match substr_from 25 szIntLog with
    | none => none
    | some rest => some (szIntLog.take 25 ++ ansi_red ++ rest ++ ansi_reset)

/-- Lines 266-274 of `Log`: the line is sent to syslog. -/
def log_syslog (k : LogConsts) (g : Globals) (level : Nat) (cbuffer : Str) (lg : CLogger) :
    CLogger :=
  if g.g_bUseSyslog then
    let sLogLevel :=
      if level &&& k.LOG_ERROR != 0 then syslog_priority.LOG_ERR
      else if level &&& k.LOG_STATUS != 0 then syslog_priority.LOG_NOTICE
      else syslog_priority.LOG_INFO
    { lg with syslog_lines := lg.syslog_lines ++ [(sLogLevel, cbuffer)] }
  else lg

/-- Lines 306-315 of `Log`: an error line is kept for the notification
system. -/
def notify_error (k : LogConsts) (os : os_call) (level : Nat) (line : _tLogLineStruct)
    (lg : CLogger) : CLogger :=
  if (level &&& k.LOG_ERROR != 0) && lg.m_bEnableErrorsToNotificationSystem then
    let lg :=
      if lg.m_notification_log.length ≥ MAX_LOG_LINE_BUFFER then
        { lg with m_notification_log := lg.m_notification_log.drop 1 }
      else lg
    let lg := { lg with m_notification_log := lg.m_notification_log ++ [line] }
    if lg.m_notification_log.length == 1 && os.now - lg.m_LastLogNotificationsSend ≥ 5 then
      { lg with notification_checks := lg.notification_checks + 1 }
    else lg
  else lg

/-- Lines 317-328 of `Log`: the line is printed unless the process runs as a
daemon; `none` when `substr` throws. -/
def print_console (k : LogConsts) (g : Globals) (level : Nat) (szIntLog : Str)
    (lg : CLogger) : Option CLogger :=
  if !g.g_bRunAsDaemon then
    match console_text k level szIntLog with
    | none => none
    | some out => some { lg with console := lg.console ++ [out] }
  else some lg

/-- Lines 330-335 of `Log`: the line is written to the output file. -/
def write_outputfile (szIntLog : Str) (lg : CLogger) : CLogger :=
  if lg.m_outputfile then
    { lg with outputfile_lines := lg.outputfile_lines ++ [szIntLog] }
  else lg

/-- Lines 337-343 of `Log`: the line is stored in the buffer of its level. -/
def store_line (level : Nat) (line : _tLogLineStruct) (lg : CLogger) : CLogger :=
  let lg :=
    match map_find level lg.m_lastlog with
    | some _ =>
      { lg with m_lastlog := (map_update level
          (fun d => if d.length ≥ MAX_LOG_LINE_BUFFER then d.drop 1 else d) lg.m_lastlog) }
    | none => lg
  { lg with m_lastlog := map_update level (fun d => d ++ [line]) lg.m_lastlog }

/-- The function `CLogger::Log(level, logline, ...)`, `text` being the text the
format and its arguments produce; `none` when an exception leaves the
function. -/
def Log (k : LogConsts) (g : Globals) (os : os_call) (level : Nat) (text : Str)
    (lg : CLogger) : Option CLogger :=
  if lg.m_log_flags &&& level == 0 then some lg
  else
    let cbuffer := vsnprintf text
    let lg := log_syslog k g level cbuffer lg
    let szIntLog := format_line k os level cbuffer lg
    let line : _tLogLineStruct := { logtime := os.now, level := level, logmessage := szIntLog }
    let lg := notify_error k os level line lg
    match print_console k g level szIntLog lg with
    | none => none
    | some lg => some (store_line level line (write_outputfile szIntLog lg))

/-- The function `CLogger::Log(level, logline, ...)` with the logger it leaves
behind in either case: `.ok` when the function returns, `.error` when
`std::out_of_range` leaves it at line 326.  At the throw lines 266-315 have run
and lines 330-343 have not; `console` holds finished lines, and what `std::cout`
received of the unfinished one is not recorded. -/
def Log_exit (k : LogConsts) (g : Globals) (os : os_call) (level : Nat) (text : Str)
    (lg : CLogger) : Except CLogger CLogger :=
  if lg.m_log_flags &&& level == 0 then .ok lg
  else
    let cbuffer := vsnprintf text
    let lg := log_syslog k g level cbuffer lg
    let szIntLog := format_line k os level cbuffer lg
    let line : _tLogLineStruct := { logtime := os.now, level := level, logmessage := szIntLog }
    let lg := notify_error k os level line lg
    match print_console k g level szIntLog lg with
    | none => .error lg
    | some lg => .ok (store_line level line (write_outputfile szIntLog lg))

/-- The function `CLogger::Log(level, const std::string &)`. -/
def Log_string (k : LogConsts) (g : Globals) (os : os_call) (level : Nat) (sLogline : Str)
    (lg : CLogger) : Option CLogger :=
  Log k g os level sLogline lg

/-- The function `CLogger::Debug(level, const std::string &)`. -/
def Debug_string (k : LogConsts) (g : Globals) (os : os_call) (level : Nat) (sLogline : Str)
    (lg : CLogger) : Option CLogger :=
  if !IsDebugLevelEnabled k level lg then some lg
  else Log_string k g os k.LOG_DEBUG_INT sLogline lg

/-- The function `CLogger::Debug(level, logline, ...)`, `text` being the text
the format and its arguments produce. -/
def Debug (k : LogConsts) (g : Globals) (os : os_call) (level : Nat) (text : Str)
    (lg : CLogger) : Option CLogger :=
  if !IsDebugLevelEnabled k level lg then some lg
  else Debug_string k g os level (vsnprintf text) lg

/-! ## Retrieval -/

/-- The function `compareLogByTime`. -/
def compareLogByTime (a b : _tLogLineStruct) : Bool := a.logtime < b.logtime

/-- Insertion of `a` in front of a sorted list: `a` goes before the first
element that does not compare less than `a`. -/
def sort_insert (comp : _tLogLineStruct → _tLogLineStruct → Bool) (a : _tLogLineStruct) :
    List _tLogLineStruct → List _tLogLineStruct
  | [] => [a]
  | b :: l => if comp b a then b :: sort_insert comp a l else a :: b :: l

/-- The call `mlist.sort(comp)`: a stable sort. -/
def list_sort (comp : _tLogLineStruct → _tLogLineStruct → Bool) :
    List _tLogLineStruct → List _tLogLineStruct
  | [] => []
  | a :: l => sort_insert comp a (list_sort comp l)

/-- The function `CLogger::GetLog`. -/
def GetLog (k : LogConsts) (level : Nat) (lastlogtime : Int) (lg : CLogger) :
    List _tLogLineStruct :=
  if level != k.LOG_ALL then
    match map_find level lg.m_lastlog with
    | none => []
    | some d =>
      list_sort compareLogByTime (d.filter (fun l => decide (l.logtime > lastlogtime)))
  else
    list_sort compareLogByTime
      (lg.m_lastlog.foldl
        (fun mlist l => mlist ++ l.2.filter (fun l2 => decide (l2.logtime > lastlogtime))) [])

/-- The function `CLogger::ClearLog`. -/
def ClearLog (lg : CLogger) : CLogger :=
  { lg with m_lastlog := [] }

/-! ## The access log -/

/-- The function `CLogger::SetACLFOutputFile`. -/
def SetACLFOutputFile (k : LogConsts) (g : Globals) (os : os_call) (OutputFile : Str)
    (lg : CLogger) : Option CLogger :=
  let lg : Option CLogger :=
    if (http.server.find "syslog:".toList OutputFile).isSome then
      (Log_string k g os k.LOG_STATUS "Weblogs are send to SYSLOG!".toList lg).map
        (SetACLFlogFlags k.LOG_ACLF_SYSLOG)
    else
      some (SetACLFlogFlags k.LOG_ACLF_FILE { lg with m_aclflogfile := some OutputFile })
  lg.map (SetACLFlogFlags k.LOG_ACLF_ENABLED)

/-- The function `CLogger::OpenACLFOutputFile`. -/
def OpenACLFOutputFile (os : os_call) (lg : CLogger) : CLogger :=
  let lg :=
    if lg.m_aclfoutputfile then
      { lg with m_aclfoutputfile := false, aclf_closes := lg.aclf_closes + 1 }
    else lg
  match lg.m_aclflogfile with
  | none => lg
  | some name =>
    if name.isEmpty then lg
    else if os.open_ok then
      { lg with m_aclfoutputfile := true, aclf_opens := lg.aclf_opens + 1 }
    else lg

/-- Lines 382-397 of `ACLFlog`: the line is written to the access log file,
which is closed and opened again when the counter has reached
`MAX_ACLFLOG_LINES` or the file is not open. -/
def aclf_write_file (k : LogConsts) (os : os_call) (cbuffer : Str) (lg : CLogger) : CLogger :=
  if lg.m_aclf_flags &&& k.LOG_ACLF_FILE != 0 then
    let count := lg.m_aclf_loggedlinescnt
    let lg := { lg with m_aclf_loggedlinescnt := lg.m_aclf_loggedlinescnt + 1 }
    let lg :=
      if count ≥ MAX_ACLFLOG_LINES || !lg.m_aclfoutputfile then
        let lg :=
          if lg.m_aclfoutputfile then
            { lg with m_aclfoutputfile := false, aclf_closes := lg.aclf_closes + 1 }
          else lg
        let lg := OpenACLFOutputFile os lg
        { lg with m_aclf_loggedlinescnt := 1 }
      else lg
    if lg.m_aclfoutputfile then
      { lg with aclf_lines := lg.aclf_lines ++ [(lg.aclf_opens, cbuffer)] }
    else lg
  else lg

/-- Lines 399-404 of `ACLFlog`: the line is sent to syslog. -/
def aclf_syslog (k : LogConsts) (g : Globals) (cbuffer : Str) (lg : CLogger) : CLogger :=
  if g.g_bUseSyslog && (lg.m_aclf_flags &&& k.LOG_ACLF_SYSLOG != 0) then
    { lg with syslog_lines := lg.syslog_lines ++ [(.LOG_INFO_LOCAL1, cbuffer)] }
  else lg

/-- The function `CLogger::ACLFlog(logline, ...)`, `text` being the text the
format and its arguments produce. -/
def ACLFlog (k : LogConsts) (g : Globals) (os : os_call) (text : Str) (lg : CLogger) :
    Option CLogger :=
  if !IsACLFlogEnabled k lg then some lg
  else
    let cbuffer := vsnprintf text
    let logged : Option CLogger :=
      if IsDebugLevelEnabled k k.DEBUG_WEBSERVER lg then
        Debug k g os k.DEBUG_WEBSERVER ("Web ACLF: ".toList ++ cbuffer) lg
      else some lg
    match logged with
    | none => none
    | some lg => some (aclf_syslog k g cbuffer (aclf_write_file k os cbuffer lg))

/-! ## Parsing the log flags -/

/-- Modelled from the spec: `StringSplit` lives in `Helper.cpp`, outside the
sources at hand.  The flags are a "comma-separated token list": the string is
cut at every separator. -/
def StringSplit (str : Str) (delim : Char) : List Str := str.splitOn delim

/-- The characters `isspace` accepts. -/
def is_space (c : Char) : Bool :=
  c == ' ' || c == '\t' || c == '\n' || c == Char.ofNat 11 || c == Char.ofNat 12 || c == '\r'

/-- Modelled from the spec: `stdstring_trim` lives in `Helper.cpp`, outside the
sources at hand.  It removes the whitespace that surrounds a token. -/
def stdstring_trim (s : Str) : Str := (s.dropWhile is_space).rdropWhile is_space

/-- Modelled from the spec: `is_number` lives in `Helper.cpp`, outside the
sources at hand.  A "numeric token" is a non-empty string of digits. -/
def is_number (s : Str) : Bool := !s.isEmpty && s.all Char.isDigit

/-- The conversion `strtoul(s, nullptr, 10)` of a string of digits, assigned to
a `uint32_t`: the value saturates at `ULONG_MAX` and is then truncated. -/
def strtoul_uint32 (s : Str) : Nat :=
  (min (s.foldl (fun n c => n * 10 + (c.toNat - '0'.toNat)) 0) (2 ^ 64 - 1)) % 2 ^ 32

/-- The loop of `SetLogFlags(const std::string &)` over the split flags, from
the value `iFlags`. -/
def parse_log_flags (k : LogConsts) : List Str → Nat → Nat
  | [], iFlags => iFlags
  | wflag :: rest, iFlags =>
    let wflag := stdstring_trim wflag
    if wflag.isEmpty then parse_log_flags k rest iFlags
    else if is_number wflag then strtoul_uint32 wflag
    else if wflag = "all".toList then parse_log_flags k rest (iFlags ||| k.LOG_ALL)
    else if wflag = "normal".toList then parse_log_flags k rest (iFlags ||| k.LOG_NORM)
    else if wflag = "status".toList then parse_log_flags k rest (iFlags ||| k.LOG_STATUS)
    else if wflag = "error".toList then parse_log_flags k rest (iFlags ||| k.LOG_ERROR)
    else if wflag = "debug".toList then parse_log_flags k rest (iFlags ||| k.LOG_DEBUG_INT)
    else parse_log_flags k rest iFlags

/-- The function `CLogger::SetLogFlags(const std::string &)`. -/
def SetLogFlags_string (k : LogConsts) (sFlags : Str) (lg : CLogger) : CLogger :=
  let iFlags := parse_log_flags k (StringSplit sFlags ',') 0
  let iFlags := if iFlags == 0 then (k.LOG_STATUS + k.LOG_ERROR) % 2 ^ 32 else iFlags
  SetLogFlags iFlags lg

/-- The documented tokens for log flags that name one flag. -/
inductive log_token where
  | normal
  | status
  | error
  | debug
  deriving DecidableEq, Repr

/-- The name of a token. -/
def log_token.name : log_token → Str
  | .normal => "normal".toList
  | .status => "status".toList
  | .error => "error".toList
  | .debug => "debug".toList

/-- The bit of a token. -/
def log_token.bit (k : LogConsts) : log_token → Nat
  | .normal => k.LOG_NORM
  | .status => k.LOG_STATUS
  | .error => k.LOG_ERROR
  | .debug => k.LOG_DEBUG_INT

/-- The bitwise OR of the bits of a list of tokens. -/
def flag_mask (k : LogConsts) (toks : List log_token) : Nat :=
  toks.foldl (fun m t => m ||| t.bit k) 0

/-- The comma-separated names of a list of tokens, each with whitespace before
and after it. -/
def emit_flags (padded : List (Str × log_token × Str)) : Str :=
  [','].intercalate (padded.map (fun p => p.1 ++ p.2.1.name ++ p.2.2))

/-! ## Notions used in the properties of the logger -/

/-- The arguments of one call of `Log`, with what the operating system gives
during the call. -/
structure log_call where
  os : os_call
  level : Nat
  text : Str

/-- A sequence of calls of `Log`, oldest first; `none` when a call throws. -/
def run_logs (k : LogConsts) (g : Globals) : List log_call → CLogger → Option CLogger
  | [], lg => some lg
  | c :: cs, lg => (Log k g c.os c.level c.text lg).bind (run_logs k g cs)

/-- The record that an admitted call of `Log` stores. -/
def line_of (k : LogConsts) (lg : CLogger) (c : log_call) : _tLogLineStruct :=
  { logtime := c.os.now, level := c.level
    logmessage := format_line k c.os c.level (vsnprintf c.text) lg }

/-- The records of the calls of the given level that the log flags admit, in
call order. -/
def admitted_lines (k : LogConsts) (lg : CLogger) (calls : List log_call) (level : Nat) :
    List _tLogLineStruct :=
  (calls.filter (fun c => c.level == level && (lg.m_log_flags &&& c.level != 0))).map
    (line_of k lg)

/-- A line is stored in a deque: the oldest line is dropped first when the deque
holds `MAX_LOG_LINE_BUFFER` lines. -/
def push_ring (line : _tLogLineStruct) (d : List _tLogLineStruct) : List _tLogLineStruct :=
  (if d.length ≥ MAX_LOG_LINE_BUFFER then d.drop 1 else d) ++ [line]

/-- The fields of the logger that `Log` reads to format a line and to store
it. -/
def same_settings (lg1 lg2 : CLogger) : Prop :=
  lg1.m_bEnableLogTimestamps = lg2.m_bEnableLogTimestamps ∧
  lg1.m_log_flags = lg2.m_log_flags ∧ lg1.m_debug_flags = lg2.m_debug_flags ∧
  lg1.m_lastlog = lg2.m_lastlog

/-- The content of a buffer that held `old` after the lines `new` have been
stored. -/
def ring_result (old : Option (List _tLogLineStruct)) (new : List _tLogLineStruct) :
    Option (List _tLogLineStruct) :=
  if new = [] then old
  else some ((old.getD [] ++ new).drop ((old.getD [] ++ new).length - MAX_LOG_LINE_BUFFER))

/-- The fields of the logger that belong to the access log. -/
def same_aclf (lg1 lg2 : CLogger) : Prop :=
  lg1.m_aclf_flags = lg2.m_aclf_flags ∧ lg1.m_aclflogfile = lg2.m_aclflogfile ∧
  lg1.m_aclfoutputfile = lg2.m_aclfoutputfile ∧
  lg1.m_aclf_loggedlinescnt = lg2.m_aclf_loggedlinescnt ∧
  lg1.aclf_opens = lg2.aclf_opens ∧ lg1.aclf_closes = lg2.aclf_closes ∧
  lg1.aclf_lines = lg2.aclf_lines

/-- A sequence of calls of `ACLFlog`, oldest first. -/
def run_aclf (k : LogConsts) (g : Globals) : List (os_call × Str) → CLogger → Option CLogger
  | [], lg => some lg
  | c :: cs, lg => (ACLFlog k g c.1 c.2 lg).bind (run_aclf k g cs)

/-- The access log after `j` calls of `ACLFlog` that found the file openable,
`o0` and `c0` being the numbers of openings and closings before the first. -/
def aclf_after (k : LogConsts) (o0 c0 j : Nat) (lg : CLogger) : Prop :=
  lg.m_aclf_flags &&& k.LOG_ACLF_ENABLED ≠ 0 ∧ lg.m_aclf_flags &&& k.LOG_ACLF_FILE ≠ 0 ∧
  (∃ name, lg.m_aclflogfile = some name ∧ name ≠ []) ∧
  (if j = 0 then
    lg.m_aclfoutputfile = false ∧ lg.m_aclf_loggedlinescnt = 0 ∧
    lg.aclf_opens = o0 ∧ lg.aclf_closes = c0
  else
    lg.m_aclfoutputfile = true ∧
    lg.m_aclf_loggedlinescnt = (j - 1) % MAX_ACLFLOG_LINES + 1 ∧
    lg.aclf_opens = o0 + (j - 1) / MAX_ACLFLOG_LINES + 1 ∧
    lg.aclf_closes = c0 + (j - 1) / MAX_ACLFLOG_LINES)

/-- Access-log file logging is enabled, the file has a name, is closed, and
no line has been counted. -/
def aclf_ready (k : LogConsts) (lg : CLogger) : Prop :=
  lg.m_aclf_flags &&& k.LOG_ACLF_ENABLED ≠ 0 ∧ lg.m_aclf_flags &&& k.LOG_ACLF_FILE ≠ 0 ∧
  (∃ name, lg.m_aclflogfile = some name ∧ name ≠ []) ∧
  lg.m_aclfoutputfile = false ∧ lg.m_aclf_loggedlinescnt = 0

/-- A choice of values for the enumerators: one bit per flag. -/
def consts0 : LogConsts :=
  { LOG_NORM := 1, LOG_STATUS := 2, LOG_ERROR := 4, LOG_DEBUG_INT := 8, LOG_ALL := 0xFFFFFFF
    DEBUG_NORM := 1, DEBUG_WEBSERVER := 8, DEBUG_THREADIDS := 64
    LOG_ACLF_ENABLED := 1, LOG_ACLF_FILE := 2, LOG_ACLF_SYSLOG := 4 }

/-- The rendering of a token with its surrounding whitespace. -/
def render_token (p : Str × log_token × Str) : Str := p.1 ++ p.2.1.name ++ p.2.2

/-- What the operating system gives during a sample call. -/
def os0 : os_call :=
  { now := 1000, time_string := "2026-10-31 12:00:00.000".toList, thread_id := 2748
    open_ok := true }

/-- A process in the foreground that does not use syslog. -/
def console_globals : Globals := { g_bRunAsDaemon := false, g_bUseSyslog := false }

/-- A logger with the timestamps switched off. -/
def no_timestamps : CLogger := EnableLogTimestamps false (CLogger.construct consts0)

/-- A logger that prints thread ids. -/
def with_thread_ids : CLogger :=
  SetDebugFlags consts0.DEBUG_THREADIDS
    (SetLogFlags (consts0.LOG_ERROR ||| consts0.LOG_DEBUG_INT) (CLogger.construct consts0))

/-- Two status lines with a debug line, which is not enabled, between them. -/
def sample_calls : List log_call :=
  [{ os := os0, level := 2, text := "started".toList },
   { os := os0, level := 8, text := "not enabled".toList },
   { os := { os0 with now := 1001 }, level := 2, text := "running".toList }]

/-- A logger with two buffers. -/
def sample_buffers : CLogger :=
  { CLogger.construct consts0 with
    m_lastlog :=
      [(1, [{ logtime := 4, level := 1, logmessage := ['a'] }]),
       (2, [{ logtime := 9, level := 2, logmessage := ['b'] },
            { logtime := 3, level := 2, logmessage := ['c'] },
            { logtime := 7, level := 2, logmessage := ['d'] }])] }

/-- A logger with access-log file logging enabled and the file closed. -/
def aclf_logger : CLogger :=
  { CLogger.construct consts0 with
    m_aclf_flags := consts0.LOG_ACLF_ENABLED ||| consts0.LOG_ACLF_FILE
    m_aclflogfile := some "/var/log/web.log".toList }

/-- Two lines for the access log. -/
def two_requests : List (os_call × Str) :=
  [(os0, "GET /a".toList), (os0, "GET /b".toList)]

/-- The tokens of the string `" error,status\t,error  "`. -/
def padded_flags : List (Str × log_token × Str) :=
  [([' '], .error, []), ([], .status, ['\t']), ([], .error, [' ', ' '])]

end logger

namespace http.server

/-! ## Properties -/

/-- A call of `MyWrite` keeps the write queue consistent and either queues the
buffer or submits it. -/
theorem step_MyWrite_consistent (env : Env) (buf : Str) (c c1 : connection)
    (hc : write_queue_consistent c) (hs : step env (.MyWrite buf) c = some c1) :
    write_queue_consistent c1 ∧
    ((c1.async_writes = c.async_writes ∧ c1.writeQ = c.writeQ ++ [buf]) ∨
     (c.writeQ = [] ∧ c1.async_writes = c.async_writes ++ [socket_write_entry buf] ∧
        c1.writeQ = [])) := by
  simp only [step, event.enabled, event.complete, event.apply, if_true, Option.some.injEq] at hs
  subst hs
  obtain ⟨hk, hw⟩ := hc
  rcases hk with hk | hk <;> rcases hw with ⟨h1, h2, h3⟩ | ⟨h1, h2⟩ <;>
    simp_all [MyWrite, SocketWrite, async_write, write_queue_consistent, socket_write_entry]

/-- An error-free completion keeps the write queue consistent and either leaves
the queue alone or submits its head. -/
theorem step_handle_write_consistent (env : Env) (c c1 : connection)
    (hc : write_queue_consistent c) (hs : step env (.handle_write .success) c = some c1) :
    write_queue_consistent c1 ∧
    ((c1.async_writes = c.async_writes ∧ c1.writeQ = c.writeQ ∧
        (c1.pending_writes = [] → c1.writeQ = [])) ∨
     (∃ buf rest, c.writeQ = buf :: rest ∧
        c1.async_writes = c.async_writes ++ [socket_write_entry buf] ∧ c1.writeQ = rest)) := by
  obtain ⟨hk, hw⟩ := hc
  rcases hw with ⟨h1, h2, h3⟩ | ⟨h1, h2⟩
  · simp [step, event.enabled, h2] at hs
  · simp only [step, event.enabled, event.complete, event.apply, h2] at hs
    simp at hs
    subst hs
    cases hq : c.writeQ with
    | nil =>
      cases hka : c.keepalive_ <;>
        simp [handle_write, error_code.is_set, write_queue_consistent, hq, hka, hk,
          connection_manager_stop, reset_abandoned_timeout, set_abandoned_timeout,
          cancel_abandoned_timeout]
    | cons buf rest =>
      cases hka : c.keepalive_ <;>
        simp [handle_write, error_code.is_set, write_queue_consistent, hq, hka, hk,
          SocketWrite, async_write, socket_write_entry,
          connection_manager_stop, reset_abandoned_timeout, set_abandoned_timeout,
          cancel_abandoned_timeout]

/-- Over a sequence of write events the submitted writes followed by the queue
are the earlier queue followed by the buffers written. -/
theorem run_write_events (env : Env) (evs : List event) :
    ∀ c c2 : connection, write_queue_consistent c →
      (∀ e ∈ evs, e.is_write_event = true) → run env evs c = some c2 →
      write_queue_consistent c2 ∧
      ∃ k, k ≤ (c.writeQ ++ written_buffers evs).length ∧
        c2.async_writes
          = c.async_writes ++ ((c.writeQ ++ written_buffers evs).take k).map socket_write_entry ∧
        c2.writeQ = (c.writeQ ++ written_buffers evs).drop k := by
  induction evs with
  | nil =>
    intro c c2 hc _ hr
    simp only [run, Option.some.injEq] at hr
    subst hr
    exact ⟨hc, 0, by simp, by simp [written_buffers], by simp [written_buffers]⟩
  | cons e es ih =>
    intro c c2 hc hev hr
    have he : e.is_write_event = true := hev e (List.mem_cons_self _ _)
    have hes : ∀ e ∈ es, e.is_write_event = true :=
      fun x hx => hev x (List.mem_cons_of_mem _ hx)
    simp only [run] at hr
    cases hs : step env e c with
    | none => simp [hs] at hr
    | some c1 =>
      simp only [hs, Option.some_bind] at hr
      cases e with
      | MyWrite buf =>
        obtain ⟨hc1, h⟩ := step_MyWrite_consistent env buf c c1 hc hs
        obtain ⟨hc2, k, hk, ha, hq⟩ := ih c1 c2 hc1 hes hr
        refine ⟨hc2, ?_⟩
        rcases h with ⟨h1, h2⟩ | ⟨h0, h1, h2⟩
        · refine ⟨k, ?_, ?_, ?_⟩
          · simpa [written_buffers, h2] using hk
          · simpa [written_buffers, h1, h2] using ha
          · simpa [written_buffers, h2] using hq
        · refine ⟨k + 1, ?_, ?_, ?_⟩
          · simpa [written_buffers, h0, h2] using hk
          · simpa [written_buffers, h0, h1, h2] using ha
          · simpa [written_buffers, h0, h2] using hq
      | handle_write error =>
        cases error <;> simp [event.is_write_event] at he
        obtain ⟨hc1, h⟩ := step_handle_write_consistent env c c1 hc hs
        obtain ⟨hc2, k, hk, ha, hq⟩ := ih c1 c2 hc1 hes hr
        refine ⟨hc2, ?_⟩
        rcases h with ⟨h1, h2, _⟩ | ⟨buf, rest, h0, h1, h2⟩
        · refine ⟨k, ?_, ?_, ?_⟩
          · simpa [written_buffers, h2] using hk
          · simpa [written_buffers, h1, h2] using ha
          · simpa [written_buffers, h2] using hq
        · refine ⟨k + 1, ?_, ?_, ?_⟩
          · simpa [written_buffers, h0, h2] using hk
          · simpa [written_buffers, h0, h1, h2] using ha
          · simpa [written_buffers, h0, h2] using hq
      | _ => simp [event.is_write_event] at he

/-- C1 (write ordering).  Start from a connection of kind Http or Websocket with
no write in progress and an empty queue, and let any sequence of `MyWrite` calls
and error-free `handle_write` completions run.  Then the buffers handed to
`SocketWrite` (the new entries of `async_writes`) are the first `k` of the
buffers passed to `MyWrite`, in call order and one entry per buffer, the queue
holds the remaining ones in order, and once no submitted write is outstanding
every buffer has been handed to `SocketWrite`. -/
theorem write_order (env : Env) (evs : List event) (c0 c : connection)
    (hkind : c0.connection_type = .connection_http ∨
      c0.connection_type = .connection_websocket)
    (hidle : c0.write_in_progress = false ∧ c0.pending_writes = [])
    (hempty : c0.writeQ = [])
    (hev : ∀ e ∈ evs, e.is_write_event = true)
    (hrun : run env evs c0 = some c) :
    ∃ k, k ≤ (written_buffers evs).length ∧
      c.async_writes = c0.async_writes ++ ((written_buffers evs).take k).map socket_write_entry ∧
      c.writeQ = (written_buffers evs).drop k ∧
      (c.pending_writes = [] → k = (written_buffers evs).length) := by
  have hc0 : write_queue_consistent c0 := ⟨hkind, Or.inl ⟨hidle.1, hidle.2, hempty⟩⟩
  obtain ⟨hc, k, hk, ha, hq⟩ := run_write_events env evs c0 c hc0 hev hrun
  rw [hempty] at hk ha hq
  simp only [List.nil_append] at hk ha hq
  refine ⟨k, hk, ha, hq, ?_⟩
  intro hp
  have hqe : c.writeQ = [] := by
    rcases hc.2 with ⟨_, _, h3⟩ | ⟨_, h2⟩
    · exact h3
    · rw [hp] at h2; simp at h2
  rw [hqe] at hq
  have := List.drop_eq_nil_iff.mp hq.symm
  omega

/-- Witness of `write_order`: three writes and two completions. -/
theorem write_order_witness :
    ∃ k, k ≤ (written_buffers three_writes).length ∧
      ((run env0 three_writes fresh).getD fresh).async_writes
        = fresh.async_writes ++ ((written_buffers three_writes).take k).map socket_write_entry ∧
      ((run env0 three_writes fresh).getD fresh).writeQ = (written_buffers three_writes).drop k ∧
      (((run env0 three_writes fresh).getD fresh).pending_writes = [] →
        k = (written_buffers three_writes).length) :=
  write_order env0 three_writes fresh ((run env0 three_writes fresh).getD fresh)
    (Or.inl rfl) ⟨rfl, rfl⟩ rfl (by decide) rfl

/-- C9 (write completion outcome).  `handle_write(err)` behaves as if
`write_buffer` were cleared and `write_in_progress` reset first.  It asks the
connection manager to stop exactly when `err` is set, or the queue is empty and
keepalive is false, and otherwise does not.  Without error and with a non-empty
queue it pops the head, submits it through `SocketWrite` and leaves the rest of
the queue in order.  Without error, with an empty queue and keepalive, it sets
the status to `ENDING_WRITE` and re-arms the abandoned timer.  Whenever nothing
is submitted the write buffer stays cleared and no write is in progress. -/
theorem handle_write_outcome (error : error_code) (c : connection) :
    handle_write error c
        = handle_write error { c with write_buffer := [], write_in_progress := false } ∧
    ((handle_write error c).stop_requests = c.stop_requests + 1 ↔
        (error.is_set = true ∨ (c.writeQ = [] ∧ c.keepalive_ = false))) ∧
    ((handle_write error c).stop_requests = c.stop_requests ↔
        ¬ (error.is_set = true ∨ (c.writeQ = [] ∧ c.keepalive_ = false))) ∧
    (∀ buf rest, error.is_set = false → c.writeQ = buf :: rest →
        (handle_write error c).writeQ = rest ∧
        (handle_write error c).async_writes = c.async_writes ++ [(.handle_write, buf)] ∧
        (handle_write error c).pending_writes = c.pending_writes ++ [.handle_write] ∧
        (handle_write error c).write_buffer = buf ∧
        (handle_write error c).write_in_progress = true ∧
        (handle_write error c).stop_requests = c.stop_requests) ∧
    (error.is_set = false → c.writeQ = [] → c.keepalive_ = true →
        (handle_write error c).stop_requests = c.stop_requests ∧
        (handle_write error c).status_ = .ENDING_WRITE ∧
        (handle_write error c).abandoned_timer_armed = true) ∧
    ((error.is_set = true ∨ c.writeQ = []) →
        (handle_write error c).write_buffer = [] ∧
        (handle_write error c).write_in_progress = false ∧
        (handle_write error c).writeQ = c.writeQ ∧
        (handle_write error c).async_writes = c.async_writes ∧
        (handle_write error c).pending_writes = c.pending_writes) := by
  cases error <;> cases hq : c.writeQ <;> cases hk : c.keepalive_ <;>
    simp [handle_write, error_code.is_set, SocketWrite, async_write, connection_manager_stop,
      reset_abandoned_timeout, set_abandoned_timeout, cancel_abandoned_timeout, hq, hk]

/-- Witness of `handle_write_outcome`: a completion with one buffer queued
submits that buffer and empties the queue. -/
theorem handle_write_outcome_witness :
    (handle_write .success busy).writeQ = [] ∧
    (handle_write .success busy).async_writes
      = busy.async_writes ++ [(.handle_write, ['b'])] ∧
    (handle_write .success busy).pending_writes = busy.pending_writes ++ [.handle_write] ∧
    (handle_write .success busy).write_buffer = ['b'] ∧
    (handle_write .success busy).write_in_progress = true ∧
    (handle_write .success busy).stop_requests = busy.stop_requests :=
  (handle_write_outcome .success busy).2.2.2.1 ['b'] [] rfl rfl

/-- C10 (read-timer callback).  `handle_read_timeout(err)` leaves the connection
untouched when `err` is `operation_aborted`.  When the timer fired (no error) it
sends a WebSocket Ping, and nothing else, if the kind is Websocket and keepalive
is true; otherwise it asks the connection manager to stop, and nothing else. -/
theorem handle_read_timeout_outcome (error : error_code) (c : connection) :
    (error = .operation_aborted → handle_read_timeout error c = c) ∧
    (error = .success → c.connection_type = .connection_websocket → c.keepalive_ = true →
        handle_read_timeout error c = { c with ws_pings := c.ws_pings + 1 }) ∧
    (error = .success → (c.connection_type ≠ .connection_websocket ∨ c.keepalive_ = false) →
        handle_read_timeout error c = { c with stop_requests := c.stop_requests + 1 }) := by
  refine ⟨?_, ?_, ?_⟩
  · rintro rfl
    simp [handle_read_timeout, error_code.is_set]
  · rintro rfl hk ha
    simp [handle_read_timeout, error_code.is_set, hk, ha, SendPing]
  · rintro rfl h
    rcases h with h | h
    · cases hk : c.connection_type <;>
        simp_all [handle_read_timeout, error_code.is_set, connection_manager_stop]
    · simp [handle_read_timeout, error_code.is_set, h, connection_manager_stop]

/-- Witness of `handle_read_timeout_outcome`: the timer fires on a WebSocket
connection with keep-alive. -/
theorem handle_read_timeout_outcome_witness :
    handle_read_timeout .success ws_alive = { ws_alive with ws_pings := ws_alive.ws_pings + 1 } :=
  (handle_read_timeout_outcome .success ws_alive).2.1 rfl rfl rfl

/-- The function `MyWrite` does not change the kind. -/
theorem MyWrite_connection_type (buf : Str) (c : connection) :
    (MyWrite buf c).connection_type = c.connection_type := by
  unfold MyWrite
  split
  · split <;> rfl
  · split <;> rfl
  · rfl

/-- The function `read_more` does not change the kind. -/
theorem read_more_connection_type (c : connection) :
    (read_more c).connection_type = c.connection_type := rfl

/-- The function `send_file` does not change the kind. -/
theorem send_file_connection_type (env : Env) (f a : Str) (c : connection) :
    (send_file env f a c).2.2.connection_type = c.connection_type := by
  unfold send_file
  simp only
  split <;> rfl

/-- The status dispatch keeps the kind or sets it to Websocket. -/
theorem dispatch_status_kind (env : Env) (reply_ : reply) (c : connection) :
    (dispatch_status env reply_ c).2.2.connection_type = c.connection_type ∨
    (dispatch_status env reply_ c).2.2.connection_type = .connection_websocket := by
  unfold dispatch_status
  split
  · right; rfl
  · split
    · split
      · left; rfl
      · left; exact send_file_connection_type _ _ _ _
    · left; rfl

/-- Writing the reply keeps the kind or sets it to Websocket. -/
theorem write_reply_kind (env : Env) (request_ : request) (reply_ : reply) (c : connection) :
    (write_reply env request_ reply_ c).connection_type = c.connection_type ∨
    (write_reply env request_ reply_ c).connection_type = .connection_websocket := by
  unfold write_reply
  simp only
  split <;> split <;> simp [read_more_connection_type, MyWrite_connection_type]

/-- Up to the write of the reply the kind is kept or set to Websocket. -/
theorem before_write_kind (env : Env) (inp : read_input) (c : connection) :
    (before_write env inp c).2.2.2.connection_type = c.connection_type ∨
    (before_write env inp c).2.2.2.connection_type = .connection_websocket := by
  unfold before_write
  simp only
  have h := dispatch_status_kind env (inp.handle_request (prepare_request inp.request_ c).2)
    (prepare_request inp.request_ c).1
  have hp : (prepare_request inp.request_ c).1.connection_type = c.connection_type := rfl
  rw [hp] at h
  split <;> exact h

/-- The HTTP case of `handle_read` keeps the kind or sets it to Websocket. -/
theorem handle_read_http_kind (env : Env) (inp : read_input) (c : connection) :
    (handle_read_http env inp c).connection_type = c.connection_type ∨
    (handle_read_http env inp c).connection_type = .connection_websocket := by
  unfold handle_read_http
  split
  · have hb := before_write_kind env inp c
    have hw := write_reply_kind env (before_write env inp c).2.1 (before_write env inp c).2.2.1
      (before_write env inp c).2.2.2
    simp only
    split
    · exact hb
    · rcases hw with hw | hw
      · rw [hw]; exact hb
      · right; exact hw
  · left
    simp only
    split <;> simp [read_more_connection_type, MyWrite_connection_type]
  · left; rfl

/-- The WebSocket cases of `handle_read` keep the kind or set it to
WebsocketClosing. -/
theorem handle_read_websocket_kind (inp : read_input) (c : connection) :
    (handle_read_websocket inp c).connection_type = c.connection_type ∨
    (handle_read_websocket inp c).connection_type = .connection_websocket_closing := by
  unfold handle_read_websocket
  simp only
  split
  · split
    · left; rfl
    · right; rfl
  · left; rfl

/-- The switch of `handle_read` moves the kind up by at most one position. -/
theorem handle_read_switch_kind (env : Env) (inp : read_input) (c : connection) :
    kind_rank c.connection_type ≤ kind_rank
      (match c.connection_type with
        | .connection_http => handle_read_http env inp c
        | .connection_websocket | .connection_websocket_closing =>
          handle_read_websocket inp c).connection_type ∧
    kind_rank
      (match c.connection_type with
        | .connection_http => handle_read_http env inp c
        | .connection_websocket | .connection_websocket_closing =>
          handle_read_websocket inp c).connection_type ≤ kind_rank c.connection_type + 1 := by
  cases hk : c.connection_type
  · simp only
    rcases handle_read_http_kind env inp c with h | h
    · rw [h, hk]; simp
    · rw [h]; simp [kind_rank]
  · simp only
    rcases handle_read_websocket_kind inp c with h | h
    · rw [h, hk]; simp
    · rw [h]; simp [kind_rank]
  · simp only
    rcases handle_read_websocket_kind inp c with h | h
    · rw [h, hk]; simp
    · rw [h]; simp [kind_rank]

/-- The function `handle_read` moves the kind up by at most one position. -/
theorem handle_read_kind (env : Env) (error : error_code) (n : Nat) (inp : read_input)
    (c : connection) :
    kind_rank c.connection_type ≤ kind_rank (handle_read env error n inp c).connection_type ∧
    kind_rank (handle_read env error n inp c).connection_type
      ≤ kind_rank c.connection_type + 1 := by
  unfold handle_read
  simp only
  split
  · exact handle_read_switch_kind env inp
      { cancel_read_timeout { c with status_ := .READING } with
        _buf := (cancel_read_timeout { c with status_ := .READING })._buf + n }
  · split
    · simp [connection_manager_stop, cancel_read_timeout]
    · split <;> simp [connection_manager_stop, cancel_read_timeout]

/-- Every operation moves the kind up by at most one position. -/
theorem apply_kind (env : Env) (e : event) (c : connection) :
    kind_rank c.connection_type ≤ kind_rank (e.apply env (e.complete c)).connection_type ∧
    kind_rank (e.apply env (e.complete c)).connection_type
      ≤ kind_rank c.connection_type + 1 := by
  cases e with
  | handle_read error n inp =>
    exact handle_read_kind env error n inp { c with pending_reads := c.pending_reads - 1 }
  | MyWrite buf => simp [event.apply, event.complete, MyWrite_connection_type]
  | WS_Write resp =>
    simp only [event.apply, event.complete, WS_Write]
    split <;> simp [MyWrite_connection_type]
  | start r l =>
    simp only [event.apply, event.complete, start]
    split
    · simp [connection_manager_stop]
    · split
      · simp [connection_manager_stop]
      · simp only [set_abandoned_timeout]
        split <;> simp [read_more_connection_type]
  | handle_handshake error =>
    simp only [event.apply, event.complete, handle_handshake]
    split
    · split <;> simp [read_more_connection_type, connection_manager_stop]
    · simp
  | handle_write error =>
    simp only [event.apply, event.complete, handle_write]
    split
    · simp only [SocketWrite, async_write, reset_abandoned_timeout, set_abandoned_timeout,
        cancel_abandoned_timeout]
      split <;> simp
    · split
      · simp [connection_manager_stop]
      · split
        · simp [connection_manager_stop]
        · split <;> simp [connection_manager_stop, reset_abandoned_timeout,
            set_abandoned_timeout, cancel_abandoned_timeout]
  | handle_write_file error =>
    simp only [event.apply, event.complete, handle_write_file]
    split
    · split <;> simp [async_write]
    · split <;> simp [connection_manager_stop]
  | handle_read_timeout error =>
    have hc : (event.complete (.handle_read_timeout error) c).connection_type
        = c.connection_type := by
      simp only [event.complete]
      split <;> rfl
    rw [← hc]
    simp only [event.apply, handle_read_timeout]
    split
    · simp [SendPing]
    · split
      · simp [connection_manager_stop]
      · split <;> simp [connection_manager_stop]
  | handle_abandoned_timeout error =>
    have hc : (event.complete (.handle_abandoned_timeout error) c).connection_type
        = c.connection_type := by
      simp only [event.complete]
      split <;> rfl
    rw [← hc]
    simp only [event.apply, handle_abandoned_timeout]
    split <;> simp [connection_manager_stop]
  | handle_timeout error =>
    simp only [event.apply, event.complete, handle_timeout]
    split
    · split <;> simp_all [SendPing, cancel_read_timeout, cancel_abandoned_timeout]
    · simp
  | stop =>
    simp only [event.apply, event.complete, stop]
    split <;> simp_all [cancel_read_timeout, cancel_abandoned_timeout]

/-- C4 (the kind is monotone).  Over every sequence of connection events, from
any state, the kind never moves back in the order Http, Websocket,
WebsocketClosing and moves forward by at most one position per event: a
connection that is no longer Http never becomes Http again, and one that is
WebsocketClosing stays WebsocketClosing. -/
theorem kind_monotone (env : Env) (evs : List event) :
    ∀ c1 c2 : connection, run env evs c1 = some c2 →
      kind_rank c1.connection_type ≤ kind_rank c2.connection_type ∧
      kind_rank c2.connection_type ≤ kind_rank c1.connection_type + evs.length ∧
      (c1.connection_type ≠ .connection_http → c2.connection_type ≠ .connection_http) ∧
      (c1.connection_type = .connection_websocket_closing →
        c2.connection_type = .connection_websocket_closing) := by
  have key : ∀ (evs : List event) (c1 c2 : connection), run env evs c1 = some c2 →
      kind_rank c1.connection_type ≤ kind_rank c2.connection_type ∧
      kind_rank c2.connection_type ≤ kind_rank c1.connection_type + evs.length := by
    intro evs
    induction evs with
    | nil =>
      intro c1 c2 h
      simp only [run, Option.some.injEq] at h
      subst h
      simp
    | cons e es ih =>
      intro c1 c2 h
      simp only [run, step] at h
      split at h
      · simp only [Option.some_bind] at h
        have h1 := apply_kind env e c1
        have h2 := ih _ _ h
        simp only [List.length_cons]
        omega
      · simp at h
  intro c1 c2 h
  obtain ⟨h1, h2⟩ := key evs c1 c2 h
  refine ⟨h1, h2, ?_, ?_⟩
  · intro hne heq
    rw [heq] at h1
    cases hk : c1.connection_type <;> simp_all [kind_rank]
  · intro heq
    rw [heq] at h1
    cases hk : c2.connection_type <;> simp_all [kind_rank]

/-- Witness of `kind_monotone`: an upgrade followed by a close frame. -/
theorem kind_monotone_witness :
    kind_rank fresh.connection_type
      ≤ kind_rank ((run env0 upgrade_then_close fresh).getD fresh).connection_type ∧
    kind_rank ((run env0 upgrade_then_close fresh).getD fresh).connection_type
      ≤ kind_rank fresh.connection_type + upgrade_then_close.length ∧
    (fresh.connection_type ≠ .connection_http →
      ((run env0 upgrade_then_close fresh).getD fresh).connection_type ≠ .connection_http) ∧
    (fresh.connection_type = .connection_websocket_closing →
      ((run env0 upgrade_then_close fresh).getD fresh).connection_type
        = .connection_websocket_closing) :=
  kind_monotone env0 upgrade_then_close fresh ((run env0 upgrade_then_close fresh).getD fresh) rfl

/-- The keep-alive step does not change the status of the reply. -/
theorem add_keep_alive_status (req : request) (rep : reply) (c : connection) :
    (add_keep_alive req rep c).status = rep.status := by
  unfold add_keep_alive add_header_if_absent
  split
  · simp only
    split <;> split <;> rfl
  · rfl

/-- The keep-alive step leaves a reply of any status other than 200, 204 and
304 as it is. -/
theorem add_keep_alive_other (req : request) (rep : reply) (c : connection)
    (h : ¬ keep_alive_status rep.status) : add_keep_alive req rep c = rep := by
  unfold add_keep_alive
  split
  · rename_i hc
    exfalso
    apply h
    simp only [Bool.and_eq_true, Bool.or_eq_true, beq_iff_eq] at hc
    unfold keep_alive_status
    tauto
  · rfl

/-- A header that is absent is present after `add_header_if_absent`. -/
theorem add_header_if_absent_mem (rep : reply) (name value : Str)
    (h : has_header name rep = false) :
    ({ name := name, value := value } : header) ∈ (add_header_if_absent rep name value).headers := by
  unfold has_header at h
  unfold add_header_if_absent
  rw [h]
  simp

/-- The helper `add_header_if_absent` keeps the headers of the reply. -/
theorem add_header_if_absent_keeps (rep : reply) (name value : Str) (x : header)
    (h : x ∈ rep.headers) : x ∈ (add_header_if_absent rep name value).headers := by
  unfold add_header_if_absent
  split
  · exact h
  · simp [h]

/-- A `Connection` header that appears in the keep-alive step is
`Connection: Keep-Alive`, on a keep-alive request and a status of 200, 204 or
304. -/
theorem add_keep_alive_connection (req : request) (rep : reply) (c : connection)
    (h : has_header "Connection".toList rep = false)
    (hc : has_header "Connection".toList (add_keep_alive req rep c) = true) :
    keep_alive_status rep.status ∧ req.keep_alive = true ∧
    ({ name := "Connection".toList, value := "Keep-Alive".toList } : header)
      ∈ (add_keep_alive req rep c).headers := by
  by_cases hs : keep_alive_status rep.status
  · by_cases hk : req.keep_alive = true
    · refine ⟨hs, hk, ?_⟩
      have hcond : (req.keep_alive && (rep.status == .ok || rep.status == .no_content
          || rep.status == .not_modified)) = true := by
        unfold keep_alive_status at hs
        simp only [Bool.and_eq_true, Bool.or_eq_true, beq_iff_eq]
        tauto
      unfold add_keep_alive
      rw [if_pos hcond]
      exact add_header_if_absent_keeps _ _ _ _ (add_header_if_absent_mem rep _ _ h)
    · exfalso
      have : add_keep_alive req rep c = rep := by
        unfold add_keep_alive
        simp [hk]
      rw [this, h] at hc
      simp at hc
  · rw [add_keep_alive_other req rep c hs, h] at hc
    simp at hc

/-- The request is marked keep-alive exactly when its `Connection` header
equals `Keep-Alive` up to case. -/
theorem prepare_request_keep_alive (r : request) (c : connection) :
    (prepare_request r c).2.keep_alive = true ↔
      ∃ v, r.connection_header = some v ∧ iequals v "Keep-Alive".toList = true := by
  unfold prepare_request
  simp only
  cases h : r.connection_header with
  | none => split <;> split <;> simp
  | some v => split <;> split <;> simp

/-- When `send_file` returns false it leaves the stock 404 reply. -/
theorem send_file_false (env : Env) (f a : Str) (c : connection)
    (h : (send_file env f a c).1 = false) :
    (send_file env f a c).2.1 = stock_reply env .not_found := by
  unfold send_file at h ⊢
  simp only at h ⊢
  split
  · rfl
  · rename_i hopen
    rw [if_neg hopen] at h
    simp at h

/-- When `handle_read` goes on to write, the reply is the one of the handler,
the stock 500 or the stock 404. -/
theorem dispatch_status_reply (env : Env) (r0 : reply) (c : connection)
    (hsent : (dispatch_status env r0 c).1 = false) :
    (dispatch_status env r0 c).2.1 = r0 ∨
    (dispatch_status env r0 c).2.1 = stock_reply env .internal_server_error ∨
    (dispatch_status env r0 c).2.1 = stock_reply env .not_found := by
  unfold dispatch_status at hsent ⊢
  by_cases h1 : r0.status = .switching_protocols
  · simp [h1]
  · by_cases h2 : r0.status = .download_file
    · simp only [h1, h2, if_false, if_true] at hsent ⊢
      cases hs : split_download r0.content with
      | none => simp
      | some p =>
        obtain ⟨f, a⟩ := p
        simp only [hs] at hsent ⊢
        right; right
        exact send_file_false env _ _ c hsent
    · simp [h1, h2]

/-- The definition of `before_write`, with the pairs taken apart. -/
theorem before_write_eq (env : Env) (inp : read_input) (c : connection) :
    before_write env inp c =
      if (dispatch_status env (inp.handle_request (prepare_request inp.request_ c).2)
          (prepare_request inp.request_ c).1).1 then
        (true, (prepare_request inp.request_ c).2,
          (dispatch_status env (inp.handle_request (prepare_request inp.request_ c).2)
            (prepare_request inp.request_ c).1).2.1,
          (dispatch_status env (inp.handle_request (prepare_request inp.request_ c).2)
            (prepare_request inp.request_ c).1).2.2)
      else
        (false, (prepare_request inp.request_ c).2,
          add_keep_alive (prepare_request inp.request_ c).2
            (dispatch_status env (inp.handle_request (prepare_request inp.request_ c).2)
              (prepare_request inp.request_ c).1).2.1
            (dispatch_status env (inp.handle_request (prepare_request inp.request_ c).2)
              (prepare_request inp.request_ c).1).2.2,
          (dispatch_status env (inp.handle_request (prepare_request inp.request_ c).2)
            (prepare_request inp.request_ c).1).2.2) := rfl

/-- C3 (keep-alive headers).  Take a complete HTTP request, a handler reply
without `Connection` header, stock replies without `Connection` header, and let
`handle_read` go on to serialize a reply (it has not returned after
`send_file`).  Then `handle_read` hands `write_reply` the reply of
`before_write`, and that reply has a `Connection` header only if its status is
200, 204 or 304 and the `Connection` header of the request equals `Keep-Alive`
up to case, in which case the header is `Connection: Keep-Alive`.  For every
other status the reply is serialized exactly as the status dispatch left it,
without added headers; in particular a 101 reply is the handler's reply and a
malformed download marker gives the unchanged stock 500. -/
theorem keep_alive_headers (env : Env) (inp : read_input) (c : connection)
    (hparse : inp.parse_result = .true_value)
    (hstock500 : has_header "Connection".toList (stock_reply env .internal_server_error) = false)
    (hstock404 : has_header "Connection".toList (stock_reply env .not_found) = false)
    (hreply : has_header "Connection".toList
      (inp.handle_request (prepare_request inp.request_ c).2) = false)
    (hsent : (before_write env inp c).1 = false) :
    handle_read_http env inp c
      = write_reply env (before_write env inp c).2.1 (before_write env inp c).2.2.1
          (before_write env inp c).2.2.2 ∧
    (has_header "Connection".toList (before_write env inp c).2.2.1 = true →
      keep_alive_status (before_write env inp c).2.2.1.status ∧
      (∃ v, inp.request_.connection_header = some v ∧ iequals v "Keep-Alive".toList = true) ∧
      ({ name := "Connection".toList, value := "Keep-Alive".toList } : header)
        ∈ (before_write env inp c).2.2.1.headers) ∧
    (¬ keep_alive_status (before_write env inp c).2.2.1.status →
      (before_write env inp c).2.2.1
        = (dispatch_status env (inp.handle_request (prepare_request inp.request_ c).2)
            (prepare_request inp.request_ c).1).2.1) ∧
    ((inp.handle_request (prepare_request inp.request_ c).2).status = .switching_protocols →
      (before_write env inp c).2.2.1 = inp.handle_request (prepare_request inp.request_ c).2) ∧
    ((inp.handle_request (prepare_request inp.request_ c).2).status = .download_file →
      split_download (inp.handle_request (prepare_request inp.request_ c).2).content = none →
      (before_write env inp c).2.2.1 = stock_reply env .internal_server_error) := by
  have hb := before_write_eq env inp c
  generalize hreq : (prepare_request inp.request_ c).2 = req at hb hreply ⊢
  generalize hr0 : inp.handle_request req = r0 at hb hreply ⊢
  generalize hc1 : (prepare_request inp.request_ c).1 = c1 at hb ⊢
  have hd : (dispatch_status env r0 c1).1 = false := by
    cases hx : (dispatch_status env r0 c1).1
    · rfl
    · rw [hx] at hb
      rw [hb] at hsent
      simp at hsent
  rw [hd] at hb
  simp only [Bool.false_eq_true, if_false] at hb
  have hka : req.keep_alive = true ↔
      ∃ v, inp.request_.connection_header = some v ∧ iequals v "Keep-Alive".toList = true := by
    rw [← hreq]
    exact prepare_request_keep_alive inp.request_ c
  have hdisp := dispatch_status_reply env r0 c1 hd
  have hnoconn : has_header "Connection".toList (dispatch_status env r0 c1).2.1 = false := by
    rcases hdisp with h | h | h <;> rw [h] <;> assumption
  rw [hb]
  refine ⟨?_, ?_, ?_, ?_, ?_⟩
  · unfold handle_read_http
    rw [hparse]
    simp only [hb]
    simp
  · intro hc
    obtain ⟨h1, h2, h3⟩ := add_keep_alive_connection req _ _ hnoconn hc
    refine ⟨?_, hka.mp h2, h3⟩
    rw [add_keep_alive_status]
    exact h1
  · intro hs
    simp only at hs ⊢
    rw [add_keep_alive_status] at hs
    exact add_keep_alive_other _ _ _ hs
  · intro hs
    have : (dispatch_status env r0 c1).2.1 = r0 := by
      unfold dispatch_status
      simp [hs]
    simp only
    rw [this]
    apply add_keep_alive_other
    rw [hs]
    unfold keep_alive_status
    simp
  · intro hs hsplit
    have : (dispatch_status env r0 c1).2.1 = stock_reply env .internal_server_error := by
      unfold dispatch_status
      simp [hs, hsplit]
    simp only
    rw [this]
    apply add_keep_alive_other
    unfold keep_alive_status stock_reply
    simp

/-- The search finds nothing in a string that does not contain the pattern. -/
theorem find_none_of_absent (pat : Str) : ∀ s : Str, ¬ pat <:+: s → find pat s = none := by
  intro s
  induction s with
  | nil =>
    intro h
    unfold find
    split
    · rename_i he
      exfalso
      apply h
      have : pat = [] := by simpa using he
      rw [this]
    · rfl
  | cons c cs ih =>
    intro h
    unfold find
    split
    · rename_i hp
      exfalso
      apply h
      exact (List.isPrefixOf_iff_prefix.mp hp).isInfix
    · have : ¬ pat <:+: cs := fun hi => h (List.infix_cons hi)
      rw [ih this]
      rfl

/-- In `p ++ "\r\n" ++ n`, with no `"\r\n"` inside `p`, the first `"\r\n"` is
right after `p`. -/
theorem find_crlf_append (n : Str) : ∀ p : Str, ¬ crlf <:+: p →
    find crlf (p ++ crlf ++ n) = some p.length := by
  intro p
  induction p with
  | nil =>
    intro _
    simp [find, crlf]
  | cons c cs ih =>
    intro h
    have hcs : ¬ crlf <:+: cs := fun hi => h (List.infix_cons hi)
    have hnp : crlf.isPrefixOf (c :: cs ++ crlf ++ n) = false := by
      cases cs with
      | nil =>
        simp [crlf, List.isPrefixOf]
      | cons d ds =>
        by_contra hp
        simp only [Bool.not_eq_false] at hp
        apply h
        simp only [crlf, String.toList, List.cons_append, List.isPrefixOf, Bool.and_eq_true,
          beq_iff_eq, Bool.and_true] at hp
        obtain ⟨h1, h2⟩ := hp
        subst h1 h2
        exact ⟨[], ds, by simp [crlf]⟩
    have hstep : find crlf (c :: cs ++ crlf ++ n)
        = (find crlf (cs ++ crlf ++ n)).map (· + 1) := by
      show find crlf (c :: (cs ++ crlf ++ n)) = _
      rw [find]
      have hnp2 : crlf.isPrefixOf (c :: (cs ++ crlf ++ n)) = false := hnp
      rw [if_neg (by rw [hnp2]; simp)]
    rw [hstep, ih hcs]
    simp

/-- The marker `p ++ "\r\n" ++ n` is split back into `p` and `n`. -/
theorem split_download_append (p n : Str) (h : ¬ crlf <:+: p) :
    split_download (p ++ crlf ++ n) = some (p, n) := by
  unfold split_download
  rw [find_crlf_append n p h]
  simp [crlf]

/-- A marker without `"\r\n"` is not split. -/
theorem split_download_none (s : Str) (h : ¬ crlf <:+: s) : split_download s = none := by
  unfold split_download
  rw [find_none_of_absent crlf s h]

/-- The pattern occurs at the position the search returns. -/
theorem find_some_occurs (pat : Str) : ∀ (s : Str) (i : Nat), find pat s = some i →
    s = s.take i ++ pat ++ s.drop (i + pat.length) := by
  intro s
  induction s with
  | nil =>
    intro i h
    unfold find at h
    split at h
    · rename_i he
      have : pat = [] := by simpa using he
      simp [this]
    · simp at h
  | cons c cs ih =>
    intro i h
    unfold find at h
    split at h
    · rename_i hp
      simp only [Option.some.injEq] at h
      subst h
      obtain ⟨t, ht⟩ := List.isPrefixOf_iff_prefix.mp hp
      simp only [List.take_zero, List.nil_append, Nat.zero_add]
      rw [← ht]
      simp
    · cases hf : find pat cs with
      | none => simp [hf] at h
      | some j =>
        simp only [hf, Option.map_some', Option.some.injEq] at h
        subst h
        have := ih j hf
        simp only [List.take_succ_cons, List.cons_append, Nat.add_right_comm j 1 pat.length,
          List.drop_succ_cons]
        congr 1

/-- A string in which the search finds nothing does not contain the pattern. -/
theorem not_infix_of_find_none (pat : Str) : ∀ s : Str, find pat s = none → ¬ pat <:+: s := by
  intro s
  induction s with
  | nil =>
    intro h hi
    unfold find at h
    split at h
    · simp at h
    · rename_i he
      apply he
      have : pat = [] := by simpa using hi
      simp [this]
  | cons c cs ih =>
    intro h hi
    unfold find at h
    split at h
    · simp at h
    · rename_i hp
      cases hf : find pat cs with
      | some j => simp [hf] at h
      | none =>
        rcases List.infix_cons_iff.mp hi with h1 | h1
        · exact hp (List.isPrefixOf_iff_prefix.mpr h1)
        · exact ih hf h1

/-- The pattern does not occur before the position the search returns. -/
theorem find_some_first (pat : Str) (hpat : pat ≠ []) : ∀ (s : Str) (i : Nat),
    find pat s = some i → ¬ pat <:+: s.take i := by
  intro s
  induction s with
  | nil =>
    intro i _ hi
    simp only [List.take_nil] at hi
    exact hpat (by simpa using hi)
  | cons c cs ih =>
    intro i h hi
    unfold find at h
    split at h
    · simp only [Option.some.injEq] at h
      subst h
      simp only [List.take_zero] at hi
      exact hpat (by simpa using hi)
    · rename_i hp
      cases hf : find pat cs with
      | none => simp [hf] at h
      | some j =>
        simp only [hf, Option.map_some', Option.some.injEq] at h
        subst h
        simp only [List.take_succ_cons] at hi
        rcases List.infix_cons_iff.mp hi with h1 | h1
        · apply hp
          apply List.isPrefixOf_iff_prefix.mpr
          obtain ⟨t, ht⟩ := h1
          refine ⟨t ++ cs.drop j, ?_⟩
          rw [← List.append_assoc, ht]
          simp
        · exact ih j hf h1

/-- The function `MyWrite` does not call `send_file`. -/
theorem MyWrite_send_file_calls (buf : Str) (c : connection) :
    (MyWrite buf c).send_file_calls = c.send_file_calls := by
  unfold MyWrite
  split
  · split <;> rfl
  · split <;> rfl
  · rfl

/-- Writing the reply does not call `send_file`. -/
theorem write_reply_send_file_calls (env : Env) (request_ : request) (reply_ : reply)
    (c : connection) :
    (write_reply env request_ reply_ c).send_file_calls = c.send_file_calls := by
  unfold write_reply
  simp only
  split <;> split <;> simp [read_more, reset_read_timeout, set_read_timeout,
    cancel_read_timeout, MyWrite_send_file_calls]

/-- A call of `send_file` is recorded with its arguments. -/
theorem send_file_send_file_calls (env : Env) (f a : Str) (c : connection) :
    (send_file env f a c).2.2.send_file_calls = c.send_file_calls ++ [(f, a)] := by
  unfold send_file
  simp only
  split <;> rfl

/-- For a complete request the HTTP case of `handle_read` either returns
after `send_file` or writes the reply. -/
theorem handle_read_http_complete (env : Env) (inp : read_input) (c : connection)
    (hparse : inp.parse_result = .true_value) :
    handle_read_http env inp c =
      if (before_write env inp c).1 then (before_write env inp c).2.2.2
      else write_reply env (before_write env inp c).2.1 (before_write env inp c).2.2.1
        (before_write env inp c).2.2.2 := by
  unfold handle_read_http
  rw [hparse]

/-- The request keeps its method when the endpoints are filled in. -/
theorem prepare_request_method (r : request) (c : connection) :
    (prepare_request r c).2.method = r.method := by
  unfold prepare_request
  simp only
  split <;> split <;> rfl

/-- Writing the reply leaves the write queue as the call of `MyWrite` with the
serialized reply leaves it. -/
theorem write_reply_writes (env : Env) (request_ : request) (reply_ : reply)
    (c : connection) :
    (write_reply env request_ reply_ c).async_writes
      = (MyWrite (env.to_string reply_ request_.method) c).async_writes ∧
    (write_reply env request_ reply_ c).pending_writes
      = (MyWrite (env.to_string reply_ request_.method) c).pending_writes ∧
    (write_reply env request_ reply_ c).write_buffer
      = (MyWrite (env.to_string reply_ request_.method) c).write_buffer ∧
    (write_reply env request_ reply_ c).write_in_progress
      = (MyWrite (env.to_string reply_ request_.method) c).write_in_progress ∧
    (write_reply env request_ reply_ c).writeQ
      = (MyWrite (env.to_string reply_ request_.method) c).writeQ := by
  unfold write_reply
  simp only
  split <;> split <;>
    simp [read_more, reset_read_timeout, set_read_timeout, cancel_read_timeout]

/-- C6 (download marker parsing).  Take a complete HTTP request whose handler
reply has status `download_file`.  If the content contains no `"\r\n"`, the
reply is replaced by the stock 500, `send_file` is not called, and the
serialized stock 500 is written as every reply is: on an Http connection it is
submitted through `SocketWrite` when no write is in progress, and appended to
the queue when one is.  If the content is `p ++ "\r\n" ++ n` with no `"\r\n"`
inside `p`, it is split into exactly `(p, n)` and `send_file` is called once,
with file name `p` and attachment name `n`.  Every content that contains
`"\r\n"` is of that form. -/
theorem download_marker (env : Env) (inp : read_input) (c : connection)
    (hparse : inp.parse_result = .true_value)
    (hstatus : (inp.handle_request (prepare_request inp.request_ c).2).status = .download_file) :
    (¬ crlf <:+: (inp.handle_request (prepare_request inp.request_ c).2).content →
      handle_read_http env inp c
        = write_reply env (prepare_request inp.request_ c).2
            (stock_reply env .internal_server_error) (prepare_request inp.request_ c).1 ∧
      (handle_read_http env inp c).send_file_calls = c.send_file_calls ∧
      (c.connection_type = .connection_http → c.write_in_progress = false →
        (handle_read_http env inp c).async_writes
          = c.async_writes ++ [(.handle_write,
              env.to_string (stock_reply env .internal_server_error) inp.request_.method)] ∧
        (handle_read_http env inp c).pending_writes = c.pending_writes ++ [.handle_write] ∧
        (handle_read_http env inp c).write_buffer
          = env.to_string (stock_reply env .internal_server_error) inp.request_.method ∧
        (handle_read_http env inp c).write_in_progress = true ∧
        (handle_read_http env inp c).writeQ = c.writeQ) ∧
      (c.connection_type = .connection_http → c.write_in_progress = true →
        (handle_read_http env inp c).writeQ
          = c.writeQ ++
            [env.to_string (stock_reply env .internal_server_error) inp.request_.method] ∧
        (handle_read_http env inp c).async_writes = c.async_writes ∧
        (handle_read_http env inp c).pending_writes = c.pending_writes ∧
        (handle_read_http env inp c).write_in_progress = true)) ∧
    (∀ p n, ¬ crlf <:+: p →
      (inp.handle_request (prepare_request inp.request_ c).2).content = p ++ crlf ++ n →
      split_download (p ++ crlf ++ n) = some (p, n) ∧
      dispatch_status env (inp.handle_request (prepare_request inp.request_ c).2)
          (prepare_request inp.request_ c).1
        = send_file env p n (prepare_request inp.request_ c).1 ∧
      (handle_read_http env inp c).send_file_calls = c.send_file_calls ++ [(p, n)]) ∧
    (crlf <:+: (inp.handle_request (prepare_request inp.request_ c).2).content →
      ∃ p n, ¬ crlf <:+: p ∧
        (inp.handle_request (prepare_request inp.request_ c).2).content = p ++ crlf ++ n) := by
  have hb := before_write_eq env inp c
  have hh := handle_read_http_complete env inp c hparse
  have hcalls : (prepare_request inp.request_ c).1.send_file_calls = c.send_file_calls := rfl
  have hmeth := prepare_request_method inp.request_ c
  have hkind : (prepare_request inp.request_ c).1.connection_type = c.connection_type := rfl
  have hwip : (prepare_request inp.request_ c).1.write_in_progress = c.write_in_progress := rfl
  have hasync : (prepare_request inp.request_ c).1.async_writes = c.async_writes := rfl
  have hpend : (prepare_request inp.request_ c).1.pending_writes = c.pending_writes := rfl
  have hq : (prepare_request inp.request_ c).1.writeQ = c.writeQ := rfl
  generalize (prepare_request inp.request_ c).2 = req at hb hstatus hmeth ⊢
  generalize inp.handle_request req = r0 at hb hstatus ⊢
  generalize (prepare_request inp.request_ c).1 = c1 at hb hcalls hkind hwip hasync hpend hq ⊢
  refine ⟨?_, ?_, ?_⟩
  · intro hno
    have hd : dispatch_status env r0 c1 = (false, stock_reply env .internal_server_error, c1) := by
      unfold dispatch_status
      simp [hstatus, split_download_none _ hno]
    rw [hd] at hb
    simp only [Bool.false_eq_true, if_false] at hb
    rw [hb] at hh
    simp only [Bool.false_eq_true, if_false] at hh
    rw [add_keep_alive_other] at hh
    · obtain ⟨w1, w2, w3, w4, w5⟩ :=
        write_reply_writes env req (stock_reply env .internal_server_error) c1
      rw [hh, write_reply_send_file_calls, hcalls, w1, w2, w3, w4, w5, hmeth]
      refine ⟨rfl, rfl, ?_, ?_⟩
      · intro hk hw
        rw [← hkind] at hk
        rw [← hwip] at hw
        simp [MyWrite, SocketWrite, async_write, hk, hw, hasync, hpend, hq]
      · intro hk hw
        rw [← hkind] at hk
        rw [← hwip] at hw
        simp [MyWrite, hk, hw, hasync, hpend, hq]
    · unfold keep_alive_status stock_reply
      simp
  · intro p n hp hcontent
    have hs := split_download_append p n hp
    have hd : dispatch_status env r0 c1 = send_file env p n c1 := by
      unfold dispatch_status
      rw [hcontent, hs]
      simp [hstatus]
    refine ⟨hs, hd, ?_⟩
    rw [hd] at hb
    rw [hh, hb]
    cases hflag : (send_file env p n c1).1
    · simp only [Bool.false_eq_true, if_false]
      rw [write_reply_send_file_calls, send_file_send_file_calls, hcalls]
    · simp only [if_true]
      rw [send_file_send_file_calls, hcalls]
  · intro hin
    cases hf : find crlf r0.content with
    | none => exact absurd hin (not_infix_of_find_none crlf _ hf)
    | some i =>
      refine ⟨r0.content.take i, r0.content.drop (i + 2), ?_, ?_⟩
      · exact find_some_first crlf (by simp [crlf]) _ _ hf
      · exact find_some_occurs crlf _ _ hf

/-- Witness of `keep_alive_headers`: a keep-alive request answered with 200. -/
theorem keep_alive_headers_witness :
    keep_alive_status (before_write env0 keep_alive_input fresh).2.2.1.status ∧
    (∃ v, keep_alive_input.request_.connection_header = some v ∧
      iequals v "Keep-Alive".toList = true) ∧
    ({ name := "Connection".toList, value := "Keep-Alive".toList } : header)
      ∈ (before_write env0 keep_alive_input fresh).2.2.1.headers :=
  (keep_alive_headers env0 keep_alive_input fresh rfl (by decide) (by decide) (by decide)
    (by decide)).2.1 (by decide)

/-- Witness of `download_marker`: the marker of the file `/tmp/a.bin` with the
attachment name `report.bin`. -/
theorem download_marker_witness :
    split_download ("/tmp/a.bin".toList ++ crlf ++ "report.bin".toList)
      = some ("/tmp/a.bin".toList, "report.bin".toList) ∧
    dispatch_status env0 (download_input.handle_request (prepare_request download_input.request_ fresh).2)
        (prepare_request download_input.request_ fresh).1
      = send_file env0 "/tmp/a.bin".toList "report.bin".toList
          (prepare_request download_input.request_ fresh).1 ∧
    (handle_read_http env0 download_input fresh).send_file_calls
      = fresh.send_file_calls ++ [("/tmp/a.bin".toList, "report.bin".toList)] :=
  (download_marker env0 download_input fresh rfl rfl).2.1 "/tmp/a.bin".toList "report.bin".toList
    (not_infix_of_find_none crlf _ (by decide)) (by decide)

/-- C2 (at most one outstanding write), evaluated at an input where it fails: a
keep-alive request is answered with 200 and, while that write is outstanding, a
second request is answered with a download marker.  `send_file` submits its
write without looking at `write_in_progress`, so two writes are outstanding.
Nor does `send_file` set `write_in_progress`: a `MyWrite` during the transfer
of the header block submits a second write as well. -/
theorem two_outstanding_writes :
    (run env0 overlapping_writes fresh).map (fun c => c.pending_writes)
      = some [.handle_write, .handle_write_file] ∧
    (run env0 write_during_download fresh).map (fun c => c.pending_writes)
      = some [.handle_write_file, .handle_write] := by
  constructor <;> decide

/-- C5 (upgrade ordering), evaluated on every reply of status 101: `handle_read`
does not return early, the connection it hands to `MyWrite` (through
`write_reply`) already has kind Websocket, whatever the kind was before. -/
theorem upgrade_kind_before_write (env : Env) (req : request) (headers : List header)
    (content : Str) (c : connection) :
    (before_write env
      (http_input req { status := .switching_protocols, headers := headers, content := content })
      c).1 = false ∧
    (before_write env
      (http_input req { status := .switching_protocols, headers := headers, content := content })
      c).2.2.2.connection_type = .connection_websocket ∧
    handle_read_http env
        (http_input req { status := .switching_protocols, headers := headers, content := content })
        c
      = write_reply env
          (before_write env (http_input req
            { status := .switching_protocols, headers := headers, content := content }) c).2.1
          (before_write env (http_input req
            { status := .switching_protocols, headers := headers, content := content }) c).2.2.1
          (before_write env (http_input req
            { status := .switching_protocols, headers := headers, content := content }) c).2.2.2 := by
  have h1 : (before_write env
      (http_input req { status := .switching_protocols, headers := headers, content := content })
      c).1 = false := by
    rw [before_write_eq]
    simp [http_input, dispatch_status]
  refine ⟨h1, ?_, ?_⟩
  · rw [before_write_eq]
    simp [http_input, dispatch_status]
  · rw [handle_read_http_complete _ _ _ rfl, h1]
    simp

/-- C7 (file transfer ends in close-and-stop), evaluated with a send buffer of
four bytes: for an empty file after one completion, and for a file of four
bytes after two completions, nothing is outstanding, the file is still open,
the send buffer is still allocated and the connection manager has not been
asked to stop.  A file of six bytes is sent as `abcd`, `ef` and the third
completion closes the file, releases the buffer and asks for the stop. -/
theorem exact_multiple_never_stops :
    (run env0 (download "/tmp/empty\r\nempty.bin".toList 1) fresh).map
        (fun c => (c.stop_requests, c.sendfile_.is_open, c.send_buffer_, c.pending_writes,
          c.pending_reads))
      = some (0, true, true, [], 0) ∧
    (run env0 (download "/tmp/four\r\nfour.bin".toList 2) fresh).map
        (fun c => ((c.async_writes.map Prod.snd).drop 1, c.stop_requests, c.sendfile_.is_open,
          c.send_buffer_, c.pending_writes, c.pending_reads))
      = some (["abcd".toList], 0, true, true, [], 0) ∧
    (run env0 (download "/tmp/a.bin\r\na.bin".toList 3) fresh).map
        (fun c => ((c.async_writes.map Prod.snd).drop 1, c.stop_requests, c.sendfile_.is_open,
          c.send_buffer_, c.pending_writes, c.pending_reads))
      = some (["abcd".toList, "ef".toList], 1, false, false, [], 0) := by
  refine ⟨?_, ?_, ?_⟩ <;> rfl

/-- C8 (malformed request).  When a read of `n > 0` bytes completes on an Http
connection and the parser reports a malformed request, then whatever keepalive
was, `handle_read` sets it to false, hands the serialized stock 400 reply to
`MyWrite`, submits no read, leaves the read timer cancelled and does not ask for
a stop itself; and if the queue is empty afterwards, the error-free completion
`handle_write` asks the connection manager to stop the connection. -/
theorem malformed_request (env : Env) (n : Nat) (inp : read_input) (c : connection)
    (hn : 0 < n) (hkind : c.connection_type = .connection_http)
    (hparse : inp.parse_result = .false_value) :
    (handle_read env .success n inp c).keepalive_ = false ∧
    handle_read env .success n inp c
      = MyWrite (env.to_string (stock_reply env .bad_request) inp.request_.method)
          { c with status_ := .READING, read_timer_armed := false, _buf := c._buf + n
                   keepalive_ := false } ∧
    (handle_read env .success n inp c).pending_reads = c.pending_reads ∧
    (handle_read env .success n inp c).read_timer_armed = false ∧
    (handle_read env .success n inp c).stop_requests = c.stop_requests ∧
    ((handle_read env .success n inp c).writeQ = [] →
      (handle_write .success (handle_read env .success n inp c)).stop_requests
        = c.stop_requests + 1) := by
  have hka : ∀ buf (d : connection), (MyWrite buf d).keepalive_ = d.keepalive_ := by
    intro buf d
    unfold MyWrite
    split
    · split <;> rfl
    · split <;> rfl
    · rfl
  have heq : handle_read env .success n inp c
      = MyWrite (env.to_string (stock_reply env .bad_request) inp.request_.method)
          { c with status_ := .READING, read_timer_armed := false, _buf := c._buf + n
                   keepalive_ := false } := by
    unfold handle_read
    simp only [error_code.is_set, Bool.not_false, Bool.true_and, gt_iff_lt, decide_eq_true hn,
      if_true, cancel_read_timeout, hkind, handle_read_http, hparse]
    rw [hka]
    simp
  have hkeep : (handle_read env .success n inp c).keepalive_ = false := by
    rw [heq, hka]
  have hstop : (handle_read env .success n inp c).stop_requests = c.stop_requests := by
    rw [heq]
    unfold MyWrite
    simp only [hkind]
    split <;> rfl
  refine ⟨hkeep, heq, ?_, ?_, hstop, ?_⟩
  · rw [heq]
    unfold MyWrite
    simp only [hkind]
    split <;> rfl
  · rw [heq]
    unfold MyWrite
    simp only [hkind]
    split <;> rfl
  · intro hq
    rw [← hstop]
    unfold handle_write
    simp [error_code.is_set, hq, hkeep, connection_manager_stop]

/-- Witness of `malformed_request`: five malformed bytes on a fresh connection. -/
theorem malformed_request_witness :
    (handle_read env0 .success 5 malformed_input fresh).keepalive_ = false ∧
    (handle_write .success (handle_read env0 .success 5 malformed_input fresh)).stop_requests
      = fresh.stop_requests + 1 :=
  ⟨(malformed_request env0 5 malformed_input fresh (by decide) rfl rfl).1,
   (malformed_request env0 5 malformed_input fresh (by decide) rfl rfl).2.2.2.2.2 rfl⟩

/-- C15 (IPv4-mapped address), as stated, fails: `start()` stores the address
string of the endpoint `::ffff:10.0.0.7` as it is, not `10.0.0.7`. -/
theorem stored_address_keeps_mapping :
    (start peer host fresh).host_remote_endpoint_address_ = "::ffff:10.0.0.7".toList ∧
    (start peer host fresh).host_remote_endpoint_address_ ≠ "10.0.0.7".toList := by
  decide

/-- C15 (IPv4-mapped address), amended.  For a remote endpoint whose address
string is `"::ffff:"` followed by `a`, `start()` stores the string with the
mapping, and `handle_read` puts `a` into `host_remote_address` of the request
it hands to the request handler, leaving the stored string as it is. -/
theorem mapped_address_stripped_in_request (a : Str) (port : Nat)
    (local_endpoint : Option (Str × Nat)) (c : connection) (req : request) :
    (start (some ("::ffff:".toList ++ a, port)) local_endpoint c).host_remote_endpoint_address_
      = "::ffff:".toList ++ a ∧
    (prepare_request req
      (start (some ("::ffff:".toList ++ a, port)) local_endpoint c)).2.host_remote_address = a ∧
    (prepare_request req
      (start (some ("::ffff:".toList ++ a, port)) local_endpoint c)).1.host_remote_endpoint_address_
      = "::ffff:".toList ++ a := by
  have h1 : (start (some ("::ffff:".toList ++ a, port)) local_endpoint c).host_remote_endpoint_address_
      = "::ffff:".toList ++ a := by
    unfold start
    simp only
    cases local_endpoint with
    | none => rfl
    | some l =>
      obtain ⟨la, lp⟩ := l
      simp only [set_abandoned_timeout]
      split <;> rfl
  refine ⟨h1, ?_, ?_⟩
  · unfold prepare_request
    simp only [h1]
    have : ("::ffff:".toList ++ a).take 7 = "::ffff:".toList := by simp
    have hd : ("::ffff:".toList ++ a).drop 7 = a := by simp
    simp only [this, hd, beq_self_eq_true, if_true]
    split <;> rfl
  · unfold prepare_request
    simp only [h1]

/-- The function `MyWrite` keeps `socket_write_outstanding`. -/
theorem MyWrite_outstanding (buf : Str) (c : connection) (h : socket_write_outstanding c) :
    socket_write_outstanding (MyWrite buf c) := by
  unfold MyWrite
  rcases h with ⟨h1, h2⟩ | ⟨h1, h2, b, h3, h4⟩
  · have hs : socket_write_outstanding (SocketWrite buf c) := by
      right
      simp [SocketWrite, async_write, h2]
    split
    · rw [if_neg (by rw [h1]; simp)]; exact hs
    · rw [if_neg (by rw [h1]; simp)]; exact hs
    · exact Or.inl ⟨h1, h2⟩
  · have hq : socket_write_outstanding { c with writeQ := c.writeQ ++ [buf] } :=
      Or.inr ⟨h1, h2, b, h3, h4⟩
    split
    · rw [if_pos h1]; exact hq
    · rw [if_pos h1]; exact hq
    · exact Or.inr ⟨h1, h2, b, h3, h4⟩

/-- After the completion of the only outstanding write,
`socket_write_outstanding` holds again. -/
theorem handle_write_outstanding (error : error_code) (c : connection)
    (h : c.pending_writes = []) : socket_write_outstanding (handle_write error c) := by
  unfold socket_write_outstanding
  cases error <;> cases hq : c.writeQ <;> cases hk : c.keepalive_ <;>
    simp [handle_write, error_code.is_set, SocketWrite, async_write, connection_manager_stop,
      reset_abandoned_timeout, set_abandoned_timeout, cancel_abandoned_timeout, hq, hk, h]

/-- Every sequence of write-queue events keeps `socket_write_outstanding`. -/
theorem run_queue_events (env : Env) (evs : List event) :
    ∀ c c2 : connection, socket_write_outstanding c →
      (∀ e ∈ evs, e.is_queue_event = true) → run env evs c = some c2 →
      socket_write_outstanding c2 := by
  induction evs with
  | nil =>
    intro c c2 hc _ hr
    simp only [run, Option.some.injEq] at hr
    subst hr
    exact hc
  | cons e es ih =>
    intro c c2 hc hev hr
    have he : e.is_queue_event = true := hev e (List.mem_cons_self _ _)
    have hes : ∀ e ∈ es, e.is_queue_event = true :=
      fun x hx => hev x (List.mem_cons_of_mem _ hx)
    simp only [run] at hr
    cases hs : step env e c with
    | none => simp [hs] at hr
    | some c1 =>
      simp only [hs, Option.some_bind] at hr
      refine ih c1 c2 ?_ hes hr
      cases e with
      | MyWrite buf =>
        simp only [step, event.enabled, event.complete, event.apply, if_true,
          Option.some.injEq] at hs
        subst hs
        exact MyWrite_outstanding buf c hc
      | handle_write error =>
        simp only [step, event.enabled, event.complete, event.apply] at hs
        split at hs
        · simp only [Option.some.injEq] at hs
          subst hs
          apply handle_write_outstanding
          rcases hc with ⟨_, h2⟩ | ⟨_, h2, _⟩ <;> simp [h2]
        · simp at hs
      | _ => simp [event.is_queue_event] at he

/-- C16 (write_in_progress invariant), as stated, fails: after `MyWrite("")` on
a fresh connection a write is in progress while `write_buffer` is empty. -/
theorem empty_buffer_in_progress :
    ∃ c, run env0 [.MyWrite []] fresh = some c ∧ ¬ write_in_progress_claim c := by
  refine ⟨MyWrite [] fresh, rfl, ?_⟩
  intro h
  have h1 : (MyWrite [] fresh).write_in_progress = true := rfl
  have h2 : (MyWrite [] fresh).write_buffer = [] := rfl
  exact (h.mp h1).1 h2

/-- C16 (write_in_progress invariant), amended.  In every state reached from a
connection without a write in progress through `MyWrite` (for every buffer,
the empty one included) and `handle_write` (with or without error),
`write_in_progress` is true exactly when a submitted write is outstanding; at
most one is, it was submitted by `SocketWrite`, and `write_buffer` holds its
buffer. -/
theorem write_in_progress_iff_outstanding (env : Env) (evs : List event) (c0 c : connection)
    (hidle : c0.write_in_progress = false ∧ c0.pending_writes = [])
    (hev : ∀ e ∈ evs, e.is_queue_event = true)
    (hrun : run env evs c0 = some c) :
    (c.write_in_progress = true ↔ c.pending_writes ≠ []) ∧
    c.pending_writes.length ≤ 1 ∧
    (c.write_in_progress = true →
      c.pending_writes = [.handle_write] ∧
      c.async_writes.getLast? = some (.handle_write, c.write_buffer)) := by
  have h := run_queue_events env evs c0 c (Or.inl hidle) hev hrun
  rcases h with ⟨h1, h2⟩ | ⟨h1, h2, b, h3, h4⟩
  · simp [h1, h2]
  · subst h4
    simp [h1, h2, h3]

/-- Witness of `write_in_progress_iff_outstanding`: two writes and a failed
completion. -/
theorem write_in_progress_iff_outstanding_witness :
    (((run env0 writes_then_error fresh).getD fresh).write_in_progress = true ↔
      ((run env0 writes_then_error fresh).getD fresh).pending_writes ≠ []) ∧
    ((run env0 writes_then_error fresh).getD fresh).pending_writes.length ≤ 1 ∧
    (((run env0 writes_then_error fresh).getD fresh).write_in_progress = true →
      ((run env0 writes_then_error fresh).getD fresh).pending_writes = [.handle_write] ∧
      ((run env0 writes_then_error fresh).getD fresh).async_writes.getLast?
        = some (.handle_write, ((run env0 writes_then_error fresh).getD fresh).write_buffer)) :=
  write_in_progress_iff_outstanding env0 writes_then_error fresh
    ((run env0 writes_then_error fresh).getD fresh) ⟨rfl, rfl⟩ (by decide) rfl

/-- C17 (read timer and status), as stated, fails in both directions: after
`handle_read` has dispatched a complete keep-alive request the status is
`WAITING_WRITE` and the read timer is armed; after `start` and `stop` the status
is `WAITING_READ` and the read timer is cancelled. -/
theorem armed_while_waiting_write :
    (run env0 keep_alive_dispatch fresh).map (fun c => (c.status_, c.read_timer_armed))
      = some (.WAITING_WRITE, true) ∧
    (run env0 start_then_stop fresh).map (fun c => (c.status_, c.read_timer_armed))
      = some (.WAITING_READ, false) := by
  constructor <;> decide

/-- The function `MyWrite` changes neither the status nor the read timer. -/
theorem MyWrite_timer_status (buf : Str) (c : connection) :
    (MyWrite buf c).status_ = c.status_ ∧
    (MyWrite buf c).read_timer_armed = c.read_timer_armed := by
  unfold MyWrite
  split
  · split <;> exact ⟨rfl, rfl⟩
  · split <;> exact ⟨rfl, rfl⟩
  · exact ⟨rfl, rfl⟩

/-- The status dispatch changes neither the status nor the read timer. -/
theorem dispatch_status_timer_status (env : Env) (reply_ : reply) (c : connection) :
    (dispatch_status env reply_ c).2.2.status_ = c.status_ ∧
    (dispatch_status env reply_ c).2.2.read_timer_armed = c.read_timer_armed := by
  unfold dispatch_status
  split
  · exact ⟨rfl, rfl⟩
  · split
    · split
      · exact ⟨rfl, rfl⟩
      · unfold send_file
        simp only
        split <;> exact ⟨rfl, rfl⟩
    · exact ⟨rfl, rfl⟩

/-- The HTTP case of `handle_read` keeps `timer_status_ok`. -/
theorem handle_read_http_timer_status (env : Env) (inp : read_input) (c : connection)
    (h : timer_status_ok c) : timer_status_ok (handle_read_http env inp c) := by
  unfold handle_read_http
  split
  · simp only
    split
    · rw [before_write_eq]
      have hd := dispatch_status_timer_status env
        (inp.handle_request (prepare_request inp.request_ c).2) (prepare_request inp.request_ c).1
      have hp1 : (prepare_request inp.request_ c).1.status_ = c.status_ := rfl
      have hp2 : (prepare_request inp.request_ c).1.read_timer_armed = c.read_timer_armed := rfl
      unfold timer_status_ok at h ⊢
      split
      · simp only
        rw [hd.1, hd.2, hp1, hp2]
        exact h
      · simp only
        rw [hd.1, hd.2, hp1, hp2]
        exact h
    · intro hs
      simp [write_reply] at hs
  · simp only
    split
    · intro _; rfl
    · unfold timer_status_ok at h ⊢
      rw [(MyWrite_timer_status _ _).1, (MyWrite_timer_status _ _).2]
      exact h
  · intro _; rfl

/-- The WebSocket cases of `handle_read` keep `timer_status_ok`. -/
theorem handle_read_websocket_timer_status (inp : read_input) (c : connection)
    (h : timer_status_ok c) : timer_status_ok (handle_read_websocket inp c) := by
  unfold handle_read_websocket
  simp only
  split
  · split
    · intro _; rfl
    · exact h
  · intro _; rfl

/-- After `handle_read`, a status of `WAITING_READ` comes with an armed timer. -/
theorem handle_read_timer_status (env : Env) (error : error_code) (n : Nat) (inp : read_input)
    (c : connection) : timer_status_ok (handle_read env error n inp c) := by
  have h0 : ∀ b, timer_status_ok
      { cancel_read_timeout { c with status_ := .READING } with _buf := b } := by
    intro b hs
    simp [cancel_read_timeout] at hs
  have h1 : timer_status_ok (cancel_read_timeout { c with status_ := .READING }) := by
    intro hs
    simp [cancel_read_timeout] at hs
  unfold handle_read
  simp only
  split
  · split
    · exact handle_read_http_timer_status env inp _ (h0 _)
    · exact handle_read_websocket_timer_status inp _ (h0 _)
    · exact handle_read_websocket_timer_status inp _ (h0 _)
  · split
    · exact h1
    · split
      · exact h1
      · exact h1

/-- The function `start` keeps `timer_status_ok`. -/
theorem start_timer_status (r l : Option (Str × Nat)) (c : connection)
    (h : timer_status_ok c) : timer_status_ok (start r l c) := by
  unfold start
  split
  · exact h
  · split
    · exact h
    · simp only [set_abandoned_timeout]
      split
      · intro hs; simp at hs
      · intro _; rfl

/-- The function `handle_write` keeps `timer_status_ok`. -/
theorem handle_write_timer_status (error : error_code) (c : connection)
    (h : timer_status_ok c) : timer_status_ok (handle_write error c) := by
  unfold timer_status_ok at h ⊢
  cases error <;> cases hq : c.writeQ <;> cases hk : c.keepalive_ <;>
    simp [handle_write, error_code.is_set, SocketWrite, async_write, connection_manager_stop,
      reset_abandoned_timeout, set_abandoned_timeout, cancel_abandoned_timeout, hq, hk] <;>
    exact h

/-- After `handle_handshake`, a status of `WAITING_READ` comes with an armed
timer. -/
theorem handle_handshake_timer_status (error : error_code) (c : connection) :
    timer_status_ok (handle_handshake error c) := by
  unfold handle_handshake timer_status_ok
  simp only
  split
  · split
    · intro _; rfl
    · intro hs; simp [connection_manager_stop] at hs
  · intro hs; simp at hs

/-- A step of `start`, `handle_read`, `handle_write` or `handle_handshake` keeps
`timer_status_ok`. -/
theorem lifecycle_step_timer_status (env : Env) (e : event) (c c1 : connection)
    (he : e.is_lifecycle_event = true) (hs : step env e c = some c1)
    (h : timer_status_ok c) : timer_status_ok c1 := by
  unfold step at hs
  split at hs
  · simp only [Option.some.injEq] at hs
    subst hs
    cases e with
    | start r l => exact start_timer_status r l _ h
    | handle_handshake error => exact handle_handshake_timer_status error _
    | handle_read error n inp => exact handle_read_timer_status env error n inp _
    | handle_write error => exact handle_write_timer_status error _ h
    | _ => simp [event.is_lifecycle_event] at he
  · simp at hs

/-- Every sequence of steps of `start`, `handle_read`, `handle_write` and
`handle_handshake` keeps `timer_status_ok`. -/
theorem run_lifecycle_timer_status (env : Env) (evs : List event) :
    ∀ c0 c : connection, timer_status_ok c0 →
      (∀ e ∈ evs, e.is_lifecycle_event = true) → run env evs c0 = some c →
      timer_status_ok c := by
  induction evs with
  | nil =>
    intro c0 c h0 _ hrun
    simp only [run, Option.some.injEq] at hrun
    subst hrun
    exact h0
  | cons e es ih =>
    intro c0 c h0 hev hrun
    simp only [run] at hrun
    cases hs : step env e c0 with
    | none => simp [hs] at hrun
    | some c1 =>
      simp only [hs, Option.some_bind] at hrun
      exact ih c1 c
        (lifecycle_step_timer_status env e c0 c1 (hev e (List.mem_cons_self _ _)) hs h0)
        (fun x hx => hev x (List.mem_cons_of_mem _ hx)) hrun

/-- C17 (read timer and status), amended.  A freshly constructed connection has
no status of `WAITING_READ`; `read_more` sets the status to `WAITING_READ` and
arms the read timer; and in every state reached through `start`, `handle_read`
(for any input), `handle_write` and `handle_handshake`, from a fresh connection
or any other in which a status of `WAITING_READ` comes with an armed read
timer, a status of `WAITING_READ` comes with an armed read timer.  The converse
is not claimed.  `stop` cancels the read timer and leaves the status as it
is. -/
theorem timer_armed_when_waiting_read (env : Env) (evs : List event) (c0 c : connection)
    (h0 : timer_status_ok c0)
    (hev : ∀ e ∈ evs, e.is_lifecycle_event = true)
    (hrun : run env evs c0 = some c) :
    timer_status_ok c ∧
    (∀ secure read_timeout, timer_status_ok (connection.construct secure read_timeout)) ∧
    (∀ d : connection,
      (read_more d).status_ = .WAITING_READ ∧ (read_more d).read_timer_armed = true) ∧
    (∀ d : connection, (stop d).read_timer_armed = false ∧ (stop d).status_ = d.status_) := by
  refine ⟨run_lifecycle_timer_status env evs c0 c h0 hev hrun, ?_, ?_, ?_⟩
  · intro secure read_timeout hs
    simp [connection.construct] at hs
  · intro d
    exact ⟨rfl, rfl⟩
  · intro d
    unfold stop
    cases d.connection_type <;> exact ⟨rfl, rfl⟩

/-- Witness of `timer_armed_when_waiting_read`: after the start of a fresh
plain connection the status is `WAITING_READ` and the read timer is armed. -/
theorem timer_armed_when_waiting_read_witness :
    ((run env0 [.start peer host] fresh).getD fresh).status_ = .WAITING_READ ∧
    ((run env0 [.start peer host] fresh).getD fresh).read_timer_armed = true :=
  ⟨by decide,
    (timer_armed_when_waiting_read env0 [.start peer host] fresh
      ((run env0 [.start peer host] fresh).getD fresh)
      (fun h => absurd h (by decide)) (by decide) rfl).1 (by decide)⟩

/-- C18 (WebSocket frames use the enqueue path), as stated, fails: on an Http
connection with no write in progress `WS_Write` leaves the frame in the queue
and submits nothing, while `MyWrite` of the frame submits it. -/
theorem ws_write_queues_before_upgrade :
    (WS_Write env0 ['x'] fresh).writeQ = [env0.create_text_frame ['x']] ∧
    (WS_Write env0 ['x'] fresh).async_writes = [] ∧
    (WS_Write env0 ['x'] fresh).write_in_progress = false ∧
    (MyWrite (env0.create_text_frame ['x']) fresh).writeQ = [] ∧
    (MyWrite (env0.create_text_frame ['x']) fresh).async_writes
      = [(.handle_write, env0.create_text_frame ['x'])] ∧
    (MyWrite (env0.create_text_frame ['x']) fresh).write_in_progress = true := by
  decide

/-- C18 (WebSocket frames use the enqueue path), amended.  On a connection of
kind Websocket `WS_Write(r)` is `MyWrite(frame(r))`, so with no write in
progress the frame is submitted at once.  On a connection of any other kind
`WS_Write(r)` appends the frame to the queue and does nothing else. -/
theorem ws_write_on_websocket (env : Env) (resp : Str) (c : connection) :
    (c.connection_type = .connection_websocket →
      WS_Write env resp c = MyWrite (env.create_text_frame resp) c) ∧
    (c.connection_type = .connection_websocket → c.write_in_progress = false →
      (WS_Write env resp c).async_writes
        = c.async_writes ++ [(.handle_write, env.create_text_frame resp)] ∧
      (WS_Write env resp c).writeQ = c.writeQ ∧
      (WS_Write env resp c).write_in_progress = true ∧
      (WS_Write env resp c).write_buffer = env.create_text_frame resp) ∧
    (c.connection_type ≠ .connection_websocket →
      WS_Write env resp c = { c with writeQ := c.writeQ ++ [env.create_text_frame resp] }) := by
  refine ⟨?_, ?_, ?_⟩
  · intro h
    simp [WS_Write, h]
  · intro h hw
    simp [WS_Write, MyWrite, SocketWrite, async_write, h, hw]
  · intro h
    simp [WS_Write, h]

/-- Witness of `ws_write_on_websocket`: a frame written on a WebSocket
connection. -/
theorem ws_write_on_websocket_witness :
    WS_Write env0 ['x'] ws_alive = MyWrite (env0.create_text_frame ['x']) ws_alive :=
  (ws_write_on_websocket env0 ['x'] ws_alive).1 rfl

end http.server

/-! ## Properties of the logger -/

namespace logger

/-- Inserting into a list permutes the list with the element in front. -/
theorem sort_insert_perm (comp : _tLogLineStruct → _tLogLineStruct → Bool)
    (a : _tLogLineStruct) (l : List _tLogLineStruct) :
    (sort_insert comp a l).Perm (a :: l) := by
  induction l with
  | nil => exact List.Perm.refl _
  | cons b l ih =>
    unfold sort_insert
    split
    · exact (List.Perm.cons b ih).trans (List.Perm.swap a b l)
    · exact List.Perm.refl _

/-- The sort returns a permutation of its argument. -/
theorem list_sort_perm (comp : _tLogLineStruct → _tLogLineStruct → Bool)
    (l : List _tLogLineStruct) : (list_sort comp l).Perm l := by
  induction l with
  | nil => exact List.Perm.refl _
  | cons a l ih =>
    unfold list_sort
    exact (sort_insert_perm comp a _).trans (List.Perm.cons a ih)

/-- Inserting into a list ordered by time gives a list ordered by time. -/
theorem sort_insert_sorted (a : _tLogLineStruct) (l : List _tLogLineStruct)
    (h : l.Pairwise (fun x y => x.logtime ≤ y.logtime)) :
    (sort_insert compareLogByTime a l).Pairwise (fun x y => x.logtime ≤ y.logtime) := by
  induction l with
  | nil => simp [sort_insert]
  | cons b l ih =>
    unfold sort_insert
    rw [List.pairwise_cons] at h
    split
    · rename_i hc
      have hba : b.logtime ≤ a.logtime := by
        simp only [compareLogByTime, decide_eq_true_eq] at hc
        omega
      rw [List.pairwise_cons]
      refine ⟨?_, ih h.2⟩
      intro x hx
      have hx2 := (List.Perm.mem_iff (sort_insert_perm compareLogByTime a l)).mp hx
      rw [List.mem_cons] at hx2
      rcases hx2 with rfl | hx2
      · exact hba
      · exact h.1 x hx2
    · rename_i hc
      have hab : a.logtime ≤ b.logtime := by
        simp only [compareLogByTime, decide_eq_true_eq] at hc
        omega
      rw [List.pairwise_cons]
      refine ⟨?_, List.pairwise_cons.mpr h⟩
      intro x hx
      rcases List.mem_cons.mp hx with rfl | hx
      · exact hab
      · exact le_trans hab (h.1 x hx)

/-- The sort by `compareLogByTime` returns a list ordered by time. -/
theorem list_sort_sorted (l : List _tLogLineStruct) :
    (list_sort compareLogByTime l).Pairwise (fun x y => x.logtime ≤ y.logtime) := by
  induction l with
  | nil => simp [list_sort]
  | cons a l ih =>
    unfold list_sort
    exact sort_insert_sorted a _ ih

/-- The loop over the map appends the filtered deques in key order. -/
theorem foldl_copy_if (f : List _tLogLineStruct → List _tLogLineStruct)
    (m : List (Nat × List _tLogLineStruct)) :
    ∀ init, m.foldl (fun mlist l => mlist ++ f l.2) init
      = init ++ (m.map (fun l => f l.2)).flatten := by
  induction m with
  | nil => intro init; simp
  | cons e m ih =>
    intro init
    simp only [List.foldl_cons, List.map_cons, List.flatten_cons]
    rw [ih, List.append_assoc]

/-- C11 (GetLog filter and order).  For every content of the buffers, every
level and every time `T`, the list `GetLog(level, T)` returns is a permutation
(so each line occurs as often as it is buffered) of the buffered lines with
`logtime > T`, taken from the buffer of the level, or from all buffers when the
level is `LOG_ALL`; it is non-decreasing by `logtime`; and it is empty for a
level other than `LOG_ALL` that has no buffer. -/
theorem GetLog_filter_and_order (k : LogConsts) (level : Nat) (lastlogtime : Int)
    (lg : CLogger) :
    (level ≠ k.LOG_ALL →
      (GetLog k level lastlogtime lg).Perm
        (((map_find level lg.m_lastlog).getD []).filter
          (fun l => decide (l.logtime > lastlogtime)))) ∧
    (level = k.LOG_ALL →
      (GetLog k level lastlogtime lg).Perm
        (((lg.m_lastlog.map Prod.snd).flatten).filter
          (fun l => decide (l.logtime > lastlogtime)))) ∧
    (GetLog k level lastlogtime lg).Pairwise (fun a b => a.logtime ≤ b.logtime) ∧
    (level ≠ k.LOG_ALL → map_find level lg.m_lastlog = none →
      GetLog k level lastlogtime lg = []) := by
  refine ⟨?_, ?_, ?_, ?_⟩
  · intro h
    unfold GetLog
    rw [if_pos (by simpa using h)]
    cases map_find level lg.m_lastlog with
    | none => simp
    | some d => exact list_sort_perm _ _
  · intro h
    unfold GetLog
    rw [if_neg (by simpa using h)]
    refine (list_sort_perm _ _).trans ?_
    rw [foldl_copy_if, List.nil_append]
    apply List.Perm.of_eq
    induction lg.m_lastlog with
    | nil => simp
    | cons e m ih => simp [ih]
  · unfold GetLog
    split
    · split
      · exact List.Pairwise.nil
      · exact list_sort_sorted _
    · exact list_sort_sorted _
  · intro h hn
    unfold GetLog
    rw [if_pos (by simpa using h), hn]

/-- The lookup after a change of the deque under a key. -/
theorem map_find_modify (level other : Nat)
    (f : List _tLogLineStruct → List _tLogLineStruct) (m : List (Nat × List _tLogLineStruct)) :
    map_find other (map_modify level f m)
      = if other = level then (map_find level m).map f else map_find other m := by
  induction m with
  | nil => simp [map_modify, map_find]
  | cons e m ih =>
    obtain ⟨key, v⟩ := e
    unfold map_modify
    by_cases h1 : key = level
    · subst h1
      by_cases h2 : other = key
      · subst h2; simp [map_find]
      · simp [map_find, h2, Ne.symm h2]
    · by_cases h2 : other = level
      · subst h2
        simp [h1, map_find, ih]
      · by_cases h3 : key = other
        · simp [h1, h2, h3, map_find]
        · simp [h1, h2, h3, map_find, ih]

/-- The lookup after the insertion of an absent key. -/
theorem map_find_insert (level other : Nat) (d : List _tLogLineStruct)
    (m : List (Nat × List _tLogLineStruct)) (hm : map_find level m = none) :
    map_find other (map_insert level d m)
      = if other = level then some d else map_find other m := by
  induction m with
  | nil =>
    by_cases h : other = level
    · simp [map_insert, map_find, h]
    · simp [map_insert, map_find, h, Ne.symm h]
  | cons e m ih =>
    obtain ⟨key, v⟩ := e
    have hk : key ≠ level := by
      intro hk
      simp [map_find, hk] at hm
    have hm2 : map_find level m = none := by
      simpa [map_find, hk] using hm
    unfold map_insert
    by_cases h1 : level < key
    · by_cases h2 : other = level
      · simp [h1, h2, map_find]
      · simp [h1, h2, Ne.symm h2, map_find]
    · by_cases h2 : other = level
      · subst h2
        simp [h1, map_find, hk, ih hm2]
      · simp [h1, h2, map_find, ih hm2]

/-- The lookup after `m_lastlog[level]` has been changed. -/
theorem map_find_update (level other : Nat) (f : List _tLogLineStruct → List _tLogLineStruct)
    (m : List (Nat × List _tLogLineStruct)) :
    map_find other (map_update level f m)
      = if other = level then some (f ((map_find level m).getD [])) else map_find other m := by
  unfold map_update
  cases h : map_find level m with
  | none => simp [map_find_insert level other _ m h]
  | some d =>
    simp only [map_find_modify, h, Option.map_some', Option.getD_some]

/-- The formatted line depends on the logger through the timestamp switch and
the two flag words only. -/
theorem format_line_congr (k : LogConsts) (os : os_call) (level : Nat) (cbuffer : Str)
    (lg1 lg2 : CLogger) (h1 : lg1.m_bEnableLogTimestamps = lg2.m_bEnableLogTimestamps)
    (h2 : lg1.m_log_flags = lg2.m_log_flags) (h3 : lg1.m_debug_flags = lg2.m_debug_flags) :
    format_line k os level cbuffer lg1 = format_line k os level cbuffer lg2 := by
  unfold format_line
  rw [h1, h2, h3]

/-- A call of `Log` whose level is not enabled returns at once. -/
theorem Log_unadmitted (k : LogConsts) (g : Globals) (os : os_call) (level : Nat) (text : Str)
    (lg : CLogger) (h : lg.m_log_flags &&& level = 0) : Log k g os level text lg = some lg := by
  unfold Log
  simp [h]

/-- Sending to syslog changes neither the settings nor the buffers. -/
theorem log_syslog_settings (k : LogConsts) (g : Globals) (level : Nat) (cbuffer : Str)
    (lg : CLogger) : same_settings (log_syslog k g level cbuffer lg) lg := by
  unfold log_syslog
  split <;> exact ⟨rfl, rfl, rfl, rfl⟩

/-- Keeping an error for the notification system changes neither the settings
nor the buffers. -/
theorem notify_error_settings (k : LogConsts) (os : os_call) (level : Nat)
    (line : _tLogLineStruct) (lg : CLogger) :
    same_settings (notify_error k os level line lg) lg := by
  unfold notify_error
  split
  · simp only
    split <;> split <;> exact ⟨rfl, rfl, rfl, rfl⟩
  · exact ⟨rfl, rfl, rfl, rfl⟩

/-- Printing changes neither the settings nor the buffers. -/
theorem print_console_settings (k : LogConsts) (g : Globals) (level : Nat) (szIntLog : Str)
    (lg lg2 : CLogger) (h : print_console k g level szIntLog lg = some lg2) :
    same_settings lg2 lg := by
  unfold print_console at h
  split at h
  · split at h
    · simp at h
    · simp only [Option.some.injEq] at h
      subst h
      exact ⟨rfl, rfl, rfl, rfl⟩
  · simp only [Option.some.injEq] at h
    subst h
    exact ⟨rfl, rfl, rfl, rfl⟩

/-- Writing to the output file changes neither the settings nor the buffers. -/
theorem write_outputfile_settings (szIntLog : Str) (lg : CLogger) :
    same_settings (write_outputfile szIntLog lg) lg := by
  unfold write_outputfile
  split <;> exact ⟨rfl, rfl, rfl, rfl⟩

/-- Storing a line pushes it on the deque of its level and leaves the other
deques and the settings alone. -/
theorem store_line_lookup (level other : Nat) (line : _tLogLineStruct) (lg : CLogger) :
    (store_line level line lg).m_bEnableLogTimestamps = lg.m_bEnableLogTimestamps ∧
    (store_line level line lg).m_log_flags = lg.m_log_flags ∧
    (store_line level line lg).m_debug_flags = lg.m_debug_flags ∧
    map_find other (store_line level line lg).m_lastlog
      = if other = level then some (push_ring line ((map_find level lg.m_lastlog).getD []))
        else map_find other lg.m_lastlog := by
  refine ⟨?_, ?_, ?_, ?_⟩
  · unfold store_line
    split <;> rfl
  · unfold store_line
    split <;> rfl
  · unfold store_line
    split <;> rfl
  · unfold store_line
    cases h : map_find level lg.m_lastlog with
    | none =>
      simp only [map_find_update, h]
      simp [push_ring, MAX_LOG_LINE_BUFFER]
    | some d =>
      simp only [map_find_update, h]
      by_cases ho : other = level
      · simp [ho, push_ring]
      · simp [ho]

/-- A call of `Log` that returns keeps the settings, pushes the line on the
deque of its level when the level is enabled, and leaves the other deques
alone. -/
theorem Log_lookup (k : LogConsts) (g : Globals) (c : log_call) (lg lg2 : CLogger)
    (h : Log k g c.os c.level c.text lg = some lg2) :
    (lg2.m_bEnableLogTimestamps = lg.m_bEnableLogTimestamps ∧
      lg2.m_log_flags = lg.m_log_flags ∧ lg2.m_debug_flags = lg.m_debug_flags) ∧
    ∀ other, map_find other lg2.m_lastlog
      = if (lg.m_log_flags &&& c.level ≠ 0) ∧ other = c.level then
          some (push_ring (line_of k lg c) ((map_find other lg.m_lastlog).getD []))
        else map_find other lg.m_lastlog := by
  unfold Log at h
  by_cases hadm : lg.m_log_flags &&& c.level = 0
  · simp only [hadm, beq_self_eq_true, if_true, Option.some.injEq] at h
    subst h
    simp [hadm]
  · have hne : (lg.m_log_flags &&& c.level == 0) = false := by simpa using hadm
    simp only [hne, Bool.false_eq_true, if_false] at h
    have hs1 := log_syslog_settings k g c.level (vsnprintf c.text) lg
    have hf : format_line k c.os c.level (vsnprintf c.text)
        (log_syslog k g c.level (vsnprintf c.text) lg)
        = format_line k c.os c.level (vsnprintf c.text) lg :=
      format_line_congr _ _ _ _ _ _ hs1.1 hs1.2.1 hs1.2.2.1
    rw [hf] at h
    have hline : line_of k lg c
        = ⟨c.os.now, c.level, format_line k c.os c.level (vsnprintf c.text) lg⟩ := rfl
    rw [← hline] at h
    have hs2 := notify_error_settings k c.os c.level (line_of k lg c)
      (log_syslog k g c.level (vsnprintf c.text) lg)
    cases hp : print_console k g c.level (format_line k c.os c.level (vsnprintf c.text) lg)
        (notify_error k c.os c.level (line_of k lg c)
          (log_syslog k g c.level (vsnprintf c.text) lg)) with
    | none => simp [hp] at h
    | some lg3 =>
      simp only [hp, Option.some.injEq] at h
      subst h
      have hs3 := print_console_settings _ _ _ _ _ _ hp
      have hs4 := write_outputfile_settings
        (format_line k c.os c.level (vsnprintf c.text) lg) lg3
      have hall : same_settings
          (write_outputfile (format_line k c.os c.level (vsnprintf c.text) lg) lg3) lg :=
        ⟨hs4.1.trans (hs3.1.trans (hs2.1.trans hs1.1)),
         hs4.2.1.trans (hs3.2.1.trans (hs2.2.1.trans hs1.2.1)),
         hs4.2.2.1.trans (hs3.2.2.1.trans (hs2.2.2.1.trans hs1.2.2.1)),
         hs4.2.2.2.trans (hs3.2.2.2.trans (hs2.2.2.2.trans hs1.2.2.2))⟩
      refine ⟨⟨?_, ?_, ?_⟩, ?_⟩
      · rw [(store_line_lookup c.level 0 _ _).1, hall.1]
      · rw [(store_line_lookup c.level 0 _ _).2.1, hall.2.1]
      · rw [(store_line_lookup c.level 0 _ _).2.2.1, hall.2.2.1]
      · intro other
        rw [(store_line_lookup c.level other _ _).2.2.2, hall.2.2.2]
        by_cases ho : other = c.level
        · subst ho
          simp [hadm]
        · simp [ho]

/-- A deque of at most `MAX_LOG_LINE_BUFFER` lines stays so. -/
theorem push_ring_length (line : _tLogLineStruct) (d : List _tLogLineStruct)
    (h : d.length ≤ MAX_LOG_LINE_BUFFER) : (push_ring line d).length ≤ MAX_LOG_LINE_BUFFER := by
  unfold push_ring
  unfold MAX_LOG_LINE_BUFFER at *
  split
  · simp only [List.length_append, List.length_drop, List.length_singleton]
    omega
  · simp only [List.length_append, List.length_singleton]
    omega

/-- Pushing a line and keeping the last `MAX_LOG_LINE_BUFFER` lines is keeping
the last `MAX_LOG_LINE_BUFFER` lines of the whole. -/
theorem ring_step (line : _tLogLineStruct) (d rest : List _tLogLineStruct)
    (h : d.length ≤ MAX_LOG_LINE_BUFFER) :
    (push_ring line d ++ rest).drop ((push_ring line d ++ rest).length - MAX_LOG_LINE_BUFFER)
      = (d ++ line :: rest).drop ((d ++ line :: rest).length - MAX_LOG_LINE_BUFFER) := by
  unfold push_ring
  unfold MAX_LOG_LINE_BUFFER at *
  split
  · rename_i hge
    have hlen : d.length = 100 := by omega
    cases d with
    | nil => simp at hlen
    | cons x d2 =>
      simp only [List.length_cons] at hlen
      have e1 : (List.drop 1 (x :: d2) ++ [line] ++ rest).length - 100 = rest.length := by
        simp only [List.drop_succ_cons, List.drop_zero, List.length_append,
          List.length_singleton]
        omega
      have e2 : (x :: d2 ++ line :: rest).length - 100 = rest.length + 1 := by
        simp only [List.cons_append, List.length_cons, List.length_append]
        omega
      rw [e1, e2]
      simp
  · simp

/-- The admitted lines depend on the logger through its settings only. -/
theorem admitted_lines_congr (k : LogConsts) (lg1 lg2 : CLogger) (calls : List log_call)
    (level : Nat) (h1 : lg1.m_bEnableLogTimestamps = lg2.m_bEnableLogTimestamps)
    (h2 : lg1.m_log_flags = lg2.m_log_flags) (h3 : lg1.m_debug_flags = lg2.m_debug_flags) :
    admitted_lines k lg1 calls level = admitted_lines k lg2 calls level := by
  unfold admitted_lines
  rw [h2]
  apply List.map_congr_left
  intro c _
  unfold line_of
  rw [format_line_congr k c.os c.level (vsnprintf c.text) lg1 lg2 h1 h2 h3]

/-- After a sequence of calls the deque of a level holds what it held, followed
by the admitted lines, cut to the last `MAX_LOG_LINE_BUFFER`. -/
theorem run_logs_lookup (k : LogConsts) (g : Globals) (level : Nat) (calls : List log_call) :
    ∀ lg lg2 : CLogger,
      (∀ d, map_find level lg.m_lastlog = some d → d.length ≤ MAX_LOG_LINE_BUFFER) →
      run_logs k g calls lg = some lg2 →
      map_find level lg2.m_lastlog
        = ring_result (map_find level lg.m_lastlog) (admitted_lines k lg calls level) := by
  induction calls with
  | nil =>
    intro lg lg2 _ h
    simp only [run_logs, Option.some.injEq] at h
    subst h
    simp [ring_result, admitted_lines]
  | cons c cs ih =>
    intro lg lg2 hlen h
    simp only [run_logs] at h
    cases hl : Log k g c.os c.level c.text lg with
    | none => simp [hl] at h
    | some lg1 =>
      simp only [hl, Option.some_bind] at h
      obtain ⟨⟨hs1, hs2, hs3⟩, hlook⟩ := Log_lookup k g c lg lg1 hl
      have hcongr := admitted_lines_congr k lg1 lg cs level hs1 hs2 hs3
      by_cases hadm : (lg.m_log_flags &&& c.level ≠ 0) ∧ level = c.level
      · have hl1 : map_find level lg1.m_lastlog
            = some (push_ring (line_of k lg c) ((map_find level lg.m_lastlog).getD [])) := by
          rw [hlook level, if_pos hadm]
        have hold : ((map_find level lg.m_lastlog).getD []).length ≤ MAX_LOG_LINE_BUFFER := by
          cases hm : map_find level lg.m_lastlog with
          | none => simp [MAX_LOG_LINE_BUFFER]
          | some d => simpa using hlen d hm
        have hlen1 : ∀ d, map_find level lg1.m_lastlog = some d →
            d.length ≤ MAX_LOG_LINE_BUFFER := by
          intro d hd
          rw [hl1] at hd
          simp only [Option.some.injEq] at hd
          subst hd
          exact push_ring_length _ _ hold
        rw [ih lg1 lg2 hlen1 h, hcongr, hl1]
        have hcons : admitted_lines k lg (c :: cs) level
            = line_of k lg c :: admitted_lines k lg cs level := by
          unfold admitted_lines
          have : (c.level == level && (lg.m_log_flags &&& c.level != 0)) = true := by
            simp [hadm.2, hadm.1]
          simp [List.filter_cons, this]
        rw [hcons]
        unfold ring_result
        simp only [Option.getD_some, List.cons_ne_nil, if_false]
        split
        · rename_i hnil
          rw [hnil]
          have := ring_step (line_of k lg c) ((map_find level lg.m_lastlog).getD []) [] hold
          simp only [List.append_nil] at this
          rw [← this]
          have hp := push_ring_length (line_of k lg c)
            ((map_find level lg.m_lastlog).getD []) hold
          have : (push_ring (line_of k lg c) ((map_find level lg.m_lastlog).getD [])).length
              - MAX_LOG_LINE_BUFFER = 0 := by omega
          rw [this]
          simp
        · rw [ring_step _ _ _ hold]
      · have hl1 : map_find level lg1.m_lastlog = map_find level lg.m_lastlog := by
          rw [hlook level, if_neg hadm]
        have hlen1 : ∀ d, map_find level lg1.m_lastlog = some d →
            d.length ≤ MAX_LOG_LINE_BUFFER := by
          intro d hd
          rw [hl1] at hd
          exact hlen d hd
        rw [ih lg1 lg2 hlen1 h, hcongr, hl1]
        have hcons : admitted_lines k lg (c :: cs) level = admitted_lines k lg cs level := by
          unfold admitted_lines
          have : (c.level == level && (lg.m_log_flags &&& c.level != 0)) = false := by
            by_cases h1 : c.level = level
            · have : lg.m_log_flags &&& c.level = 0 := by
                by_contra hne
                exact hadm ⟨hne, h1.symm⟩
              simp [this]
            · simp [h1]
          simp [List.filter_cons, this]
        rw [hcons]

/-- In a daemon every call of `Log` returns. -/
theorem Log_daemon_returns (k : LogConsts) (g : Globals) (os : os_call) (level : Nat)
    (text : Str) (lg : CLogger) (hd : g.g_bRunAsDaemon = true) :
    ∃ lg2, Log k g os level text lg = some lg2 := by
  unfold Log
  split
  · exact ⟨lg, rfl⟩
  · simp only [print_console, hd, Bool.not_true, Bool.false_eq_true, if_false]
    exact ⟨_, rfl⟩

/-- The ring buffers after calls that return.  Start from a logger without
buffers and let a sequence of `Log` calls return.  Then for every level the buffer
`m_lastlog[level]` exists exactly when a line of that level was admitted, and
it holds the last `min(n, 100)` of the `n` admitted lines of that level, in the
order they were logged.  A `Log` call whose level is not enabled in the log
flags leaves the logger as it is.  In a daemon (nothing is printed) every
sequence of `Log` calls returns. -/
theorem lastlog_ring_buffer (k : LogConsts) (g : Globals) (calls : List log_call)
    (lg0 lg : CLogger) (level : Nat)
    (hempty : lg0.m_lastlog = [])
    (hrun : run_logs k g calls lg0 = some lg) :
    (map_find level lg.m_lastlog
      = if admitted_lines k lg0 calls level = [] then none
        else some ((admitted_lines k lg0 calls level).drop
          ((admitted_lines k lg0 calls level).length - MAX_LOG_LINE_BUFFER))) ∧
    (∀ d, map_find level lg.m_lastlog = some d →
      d.length = min (admitted_lines k lg0 calls level).length MAX_LOG_LINE_BUFFER) ∧
    (∀ (os : os_call) (lv : Nat) (text : Str) (lg1 : CLogger),
      lg1.m_log_flags &&& lv = 0 → Log k g os lv text lg1 = some lg1) ∧
    (g.g_bRunAsDaemon = true →
      ∀ (calls2 : List log_call) (lg1 : CLogger), ∃ lg2, run_logs k g calls2 lg1 = some lg2) := by
  have h0 : map_find level lg0.m_lastlog = none := by rw [hempty]; rfl
  have h := run_logs_lookup k g level calls lg0 lg (by rw [h0]; simp) hrun
  rw [h0] at h
  have h1 : map_find level lg.m_lastlog
      = if admitted_lines k lg0 calls level = [] then none
        else some ((admitted_lines k lg0 calls level).drop
          ((admitted_lines k lg0 calls level).length - MAX_LOG_LINE_BUFFER)) := by
    rw [h]
    unfold ring_result
    simp
  refine ⟨h1, ?_, ?_, ?_⟩
  · intro d hd
    rw [h1] at hd
    split at hd
    · simp at hd
    · simp only [Option.some.injEq] at hd
      subst hd
      simp only [List.length_drop]
      omega
  · intro os lv text lg1 hz
    exact Log_unadmitted k g os lv text lg1 hz
  · intro hd calls2
    induction calls2 with
    | nil => intro lg1; exact ⟨lg1, rfl⟩
    | cons c cs ih =>
      intro lg1
      obtain ⟨lg2, h2⟩ := Log_daemon_returns k g c.os c.level c.text lg1 hd
      obtain ⟨lg3, h3⟩ := ih lg2
      exact ⟨lg3, by simp only [run_logs, h2, Option.some_bind, h3]⟩

/-- The function `Log` returns exactly when `Log_exit` ends with `.ok`, and
with the same logger. -/
theorem Log_exit_toOption (k : LogConsts) (g : Globals) (os : os_call) (level : Nat)
    (text : Str) (lg : CLogger) :
    Log k g os level text lg = (Log_exit k g os level text lg).toOption := by
  unfold Log Log_exit
  split
  · rfl
  · simp only
    split <;> rfl

/-- C12 (per-level ring buffer), evaluated where the code departs from it.  On
a console with the timestamps switched off, an error line with a body shorter
than 18 bytes is admitted by the log flags, so one line of level `LOG_ERROR`
has been admitted; the line `Error: ` followed by the body is shorter than 25
bytes, `substr(25)` throws, and the call is left before lines 337-343: the
logger it leaves has no buffer for `LOG_ERROR`. -/
theorem lastlog_misses_short_error (os : os_call) (text : Str) (hshort : text.length < 18) :
    no_timestamps.m_log_flags &&& consts0.LOG_ERROR ≠ 0 ∧
    admitted_lines consts0 no_timestamps
        [{ os := os, level := consts0.LOG_ERROR, text := text }] consts0.LOG_ERROR
      = [{ logtime := os.now, level := consts0.LOG_ERROR
           logmessage := "Error: ".toList ++ text }] ∧
    Log consts0 console_globals os consts0.LOG_ERROR text no_timestamps = none ∧
    (∃ lg, Log_exit consts0 console_globals os consts0.LOG_ERROR text no_timestamps = .error lg ∧
      map_find consts0.LOG_ERROR lg.m_lastlog = none ∧ lg.m_lastlog = []) := by
  have hv : vsnprintf text = text := by
    unfold vsnprintf
    apply List.take_of_length_le
    simp only [MAX_LOG_LINE_LENGTH]
    omega
  have hfmt : format_line consts0 os consts0.LOG_ERROR text no_timestamps
      = "Error: ".toList ++ text := rfl
  have hprint : print_console consts0 console_globals consts0.LOG_ERROR
      ("Error: ".toList ++ text) no_timestamps = none := by
    have hgen : ∀ s : Str, s.length < 25 →
        print_console consts0 console_globals consts0.LOG_ERROR s no_timestamps = none := by
      intro s hs
      simp [print_console, console_text, substr_from, console_globals, hs]
    apply hgen
    have h7 : "Error: ".toList.length = 7 := rfl
    rw [List.length_append, h7]
    omega
  have hexit : Log_exit consts0 console_globals os consts0.LOG_ERROR text no_timestamps
      = .error no_timestamps := by
    have hadm : (no_timestamps.m_log_flags &&& consts0.LOG_ERROR == 0) = false := rfl
    unfold Log_exit
    simp only [hadm, Bool.false_eq_true, if_false, hv]
    have hsys : log_syslog consts0 console_globals consts0.LOG_ERROR text no_timestamps
        = no_timestamps := rfl
    rw [hsys, hfmt]
    have hnot : notify_error consts0 os consts0.LOG_ERROR
        { logtime := os.now, level := consts0.LOG_ERROR
          logmessage := "Error: ".toList ++ text } no_timestamps = no_timestamps := rfl
    rw [hnot, hprint]
  refine ⟨by decide, ?_, ?_, ⟨no_timestamps, hexit, rfl, rfl⟩⟩
  · have hadm : (consts0.LOG_ERROR == consts0.LOG_ERROR &&
        (no_timestamps.m_log_flags &&& consts0.LOG_ERROR != 0)) = true := rfl
    simp only [admitted_lines, List.filter_cons, hadm, if_true, List.filter_nil, List.map_cons,
      List.map_nil, line_of, hv, hfmt]
  · rw [Log_exit_toOption, hexit]
    rfl

/-- The relation `same_aclf` is reflexive. -/
theorem same_aclf_refl (lg : CLogger) : same_aclf lg lg := ⟨rfl, rfl, rfl, rfl, rfl, rfl, rfl⟩

/-- The relation `same_aclf` is transitive. -/
theorem same_aclf_trans (a b c : CLogger) (h1 : same_aclf a b) (h2 : same_aclf b c) :
    same_aclf a c :=
  ⟨h1.1.trans h2.1, h1.2.1.trans h2.2.1, h1.2.2.1.trans h2.2.2.1,
   h1.2.2.2.1.trans h2.2.2.2.1, h1.2.2.2.2.1.trans h2.2.2.2.2.1,
   h1.2.2.2.2.2.1.trans h2.2.2.2.2.2.1, h1.2.2.2.2.2.2.trans h2.2.2.2.2.2.2⟩

/-- A debug line is logged without exception and without touching the access
log. -/
theorem Log_debug_returns (k : LogConsts) (g : Globals) (os : os_call) (text : Str)
    (lg : CLogger) (hdist : k.LOG_DEBUG_INT ≠ k.LOG_ERROR) :
    ∃ lg2, Log k g os k.LOG_DEBUG_INT text lg = some lg2 ∧ same_aclf lg2 lg := by
  unfold Log
  split
  · exact ⟨lg, rfl, same_aclf_refl lg⟩
  · simp only
    have hc : ∀ s, console_text k k.LOG_DEBUG_INT s = some s := by
      intro s
      unfold console_text
      simp [hdist]
    have h1 : ∀ c x, same_aclf (log_syslog k g k.LOG_DEBUG_INT c x) x := by
      intro c x
      unfold log_syslog
      split <;> exact same_aclf_refl _
    have h2 : ∀ l x, same_aclf (notify_error k os k.LOG_DEBUG_INT l x) x := by
      intro l x
      unfold notify_error
      split
      · simp only
        split <;> split <;> exact same_aclf_refl _
      · exact same_aclf_refl _
    have h4 : ∀ s x, same_aclf (write_outputfile s x) x := by
      intro s x
      unfold write_outputfile
      split <;> exact same_aclf_refl _
    have h5 : ∀ l x, same_aclf (store_line k.LOG_DEBUG_INT l x) x := by
      intro l x
      unfold store_line
      split <;> exact same_aclf_refl _
    have h3 : ∀ s x, ∃ x2, print_console k g k.LOG_DEBUG_INT s x = some x2 ∧
        same_aclf x2 x := by
      intro s x
      unfold print_console
      split
      · rw [hc]
        exact ⟨_, rfl, same_aclf_refl _⟩
      · exact ⟨_, rfl, same_aclf_refl _⟩
    generalize hX : log_syslog k g k.LOG_DEBUG_INT (vsnprintf text) lg = X
    generalize format_line k os k.LOG_DEBUG_INT (vsnprintf text) X = S
    generalize hL : (⟨os.now, k.LOG_DEBUG_INT, S⟩ : _tLogLineStruct) = L
    generalize hY : notify_error k os k.LOG_DEBUG_INT L X = Y
    obtain ⟨x2, hp, hs⟩ := h3 S Y
    rw [hp]
    refine ⟨_, rfl, ?_⟩
    refine same_aclf_trans _ _ _ (h5 _ _) (same_aclf_trans _ _ _ (h4 _ _) ?_)
    refine same_aclf_trans _ _ _ hs ?_
    rw [← hY, ← hX]
    exact same_aclf_trans _ _ _ (h2 _ _) (h1 _ _)

/-- The function `Debug` returns and does not touch the access log. -/
theorem Debug_returns (k : LogConsts) (g : Globals) (os : os_call) (level : Nat) (text : Str)
    (lg : CLogger) (hdist : k.LOG_DEBUG_INT ≠ k.LOG_ERROR) :
    ∃ lg2, Debug k g os level text lg = some lg2 ∧ same_aclf lg2 lg := by
  unfold Debug Debug_string Log_string
  split
  · exact ⟨lg, rfl, same_aclf_refl lg⟩
  · exact Log_debug_returns k g os _ lg hdist

/-- The predicate `aclf_after` reads the fields of the access log only. -/
theorem aclf_after_congr (k : LogConsts) (o0 c0 j : Nat) (lg1 lg2 : CLogger)
    (h : same_aclf lg1 lg2) (h2 : aclf_after k o0 c0 j lg2) : aclf_after k o0 c0 j lg1 := by
  unfold aclf_after at *
  obtain ⟨e1, e2, e3, e4, e5, e6, _⟩ := h
  rw [e1, e2, e3, e4, e5, e6]
  exact h2

/-- One more line written to the access log file. -/
theorem aclf_write_file_step (k : LogConsts) (os : os_call) (cbuffer : Str) (o0 c0 j : Nat)
    (lg : CLogger) (h : aclf_after k o0 c0 j lg) (hopen : os.open_ok = true) :
    aclf_after k o0 c0 (j + 1) (aclf_write_file k os cbuffer lg) ∧
    (aclf_write_file k os cbuffer lg).aclf_lines
      = lg.aclf_lines ++ [(o0 + j / MAX_ACLFLOG_LINES + 1, cbuffer)] := by
  obtain ⟨h1, h2, ⟨name, h3, h3n⟩, h4⟩ := h
  have hne : name.isEmpty = false := by
    cases name with
    | nil => exact absurd rfl h3n
    | cons _ _ => rfl
  unfold aclf_after aclf_write_file
  have hf : (lg.m_aclf_flags &&& k.LOG_ACLF_FILE != 0) = true := by simpa using h2
  rw [if_pos hf]
  unfold MAX_ACLFLOG_LINES at *
  by_cases hj : j = 0
  · subst hj
    simp only [if_true] at h4
    obtain ⟨a1, a2, a3, a4⟩ := h4
    simp [OpenACLFOutputFile, a1, a2, a3, a4, h1, h2, h3, hne, hopen, h3n]
  · simp only [hj, if_false] at h4
    obtain ⟨a1, a2, a3, a4⟩ := h4
    by_cases hr : j % 100000 = 0
    · have hc : (j - 1) % 100000 + 1 ≥ 100000 := by omega
      have e1 : j / 100000 = (j - 1) / 100000 + 1 := by omega
      simp [OpenACLFOutputFile, a1, a2, a3, a4, h1, h2, h3, hne, hopen, h3n, hc, e1, hr]
      omega
    · have hc : ¬ ((j - 1) % 100000 + 1 ≥ 100000) := by omega
      have e1 : j / 100000 = (j - 1) / 100000 := by omega
      have e2 : j % 100000 = (j - 1) % 100000 + 1 := by omega
      simp [a1, a2, a3, a4, h1, h2, h3, h3n, hc, e1, e2]

/-- One more call of `ACLFlog`. -/
theorem ACLFlog_step (k : LogConsts) (g : Globals) (os : os_call) (text : Str)
    (o0 c0 j : Nat) (lg : CLogger) (hdist : k.LOG_DEBUG_INT ≠ k.LOG_ERROR)
    (h : aclf_after k o0 c0 j lg) (hopen : os.open_ok = true) :
    ∃ lg2, ACLFlog k g os text lg = some lg2 ∧ aclf_after k o0 c0 (j + 1) lg2 ∧
      lg2.aclf_lines = lg.aclf_lines ++ [(o0 + j / MAX_ACLFLOG_LINES + 1, vsnprintf text)] := by
  have hen : IsACLFlogEnabled k lg = true := by
    unfold IsACLFlogEnabled
    have := h.1
    simp [this]
  have hsys : ∀ x : CLogger, same_aclf (aclf_syslog k g (vsnprintf text) x) x := by
    intro x
    unfold aclf_syslog
    split <;> exact same_aclf_refl _
  have key : ∀ lgd : CLogger, same_aclf lgd lg →
      aclf_after k o0 c0 (j + 1)
        (aclf_syslog k g (vsnprintf text) (aclf_write_file k os (vsnprintf text) lgd)) ∧
      (aclf_syslog k g (vsnprintf text) (aclf_write_file k os (vsnprintf text) lgd)).aclf_lines
        = lg.aclf_lines ++ [(o0 + j / MAX_ACLFLOG_LINES + 1, vsnprintf text)] := by
    intro lgd hs
    have hd := aclf_after_congr k o0 c0 j lgd lg hs h
    obtain ⟨s1, s2⟩ := aclf_write_file_step k os (vsnprintf text) o0 c0 j lgd hd hopen
    refine ⟨aclf_after_congr _ _ _ _ _ _ (hsys _) s1, ?_⟩
    rw [(hsys _).2.2.2.2.2.2, s2, hs.2.2.2.2.2.2]
  unfold ACLFlog
  simp only [hen, Bool.not_true, Bool.false_eq_true, if_false]
  split
  · rename_i o heq
    split at heq
    · obtain ⟨lgd, hd, _⟩ := Debug_returns k g os k.DEBUG_WEBSERVER
        ("Web ACLF: ".toList ++ vsnprintf text) lg hdist
      rw [hd] at heq
      simp at heq
    · simp at heq
  · rename_i o lgd heq
    refine ⟨_, rfl, ?_⟩
    apply key
    split at heq
    · obtain ⟨lgd2, hd, hs⟩ := Debug_returns k g os k.DEBUG_WEBSERVER
        ("Web ACLF: ".toList ++ vsnprintf text) lg hdist
      rw [hd] at heq
      simp only [Option.some.injEq] at heq
      subst heq
      exact hs
    · simp only [Option.some.injEq] at heq
      subst heq
      exact same_aclf_refl _

/-- A sequence of calls of `ACLFlog`, the `i`-th of which (from 0) writes its
line to opening number `i / MAX_ACLFLOG_LINES + 1`. -/
theorem run_aclf_steps (k : LogConsts) (g : Globals) (o0 c0 : Nat)
    (hdist : k.LOG_DEBUG_INT ≠ k.LOG_ERROR) (calls : List (os_call × Str)) :
    ∀ (j : Nat) (lg : CLogger), aclf_after k o0 c0 j lg →
      (∀ c ∈ calls, c.1.open_ok = true) →
      ∃ lg2, run_aclf k g calls lg = some lg2 ∧ aclf_after k o0 c0 (j + calls.length) lg2 ∧
        lg2.aclf_lines = lg.aclf_lines ++
          (calls.enumFrom j).map
            (fun ic => (o0 + ic.1 / MAX_ACLFLOG_LINES + 1, vsnprintf ic.2.2)) := by
  induction calls with
  | nil =>
    intro j lg h _
    exact ⟨lg, rfl, by simpa using h, by simp⟩
  | cons c cs ih =>
    intro j lg h hopen
    obtain ⟨lg1, h1, h2, h3⟩ := ACLFlog_step k g c.1 c.2 o0 c0 j lg hdist h
      (hopen c (List.mem_cons_self _ _))
    obtain ⟨lg2, r1, r2, r3⟩ := ih (j + 1) lg1 h2
      (fun x hx => hopen x (List.mem_cons_of_mem _ hx))
    refine ⟨lg2, ?_, ?_, ?_⟩
    · simp only [run_aclf, h1, Option.some_bind]
      exact r1
    · have : j + (c :: cs).length = j + 1 + cs.length := by
        simp only [List.length_cons]; omega
      rw [this]
      exact r2
    · rw [r3, h3]
      simp [List.enumFrom_cons]

/-- A sequence of calls followed by one more call. -/
theorem run_aclf_append (k : LogConsts) (g : Globals) (pre : List (os_call × Str))
    (last : os_call × Str) :
    ∀ lg, run_aclf k g (pre ++ [last]) lg
      = (run_aclf k g pre lg).bind (ACLFlog k g last.1 last.2) := by
  induction pre with
  | nil =>
    intro lg
    simp only [List.nil_append, run_aclf, Option.some_bind]
    cases ACLFlog k g last.1 last.2 lg <;> rfl
  | cons c cs ih =>
    intro lg
    simp only [List.cons_append, run_aclf]
    cases ACLFlog k g c.1 c.2 lg with
    | none => rfl
    | some lg1 => exact ih lg1

/-- C14 (ACLF rotation period).  With access-log file logging enabled, the line
counter 0, the file closed and every open succeeding, every sequence of `n`
calls of `ACLFlog` returns; the `i`-th line (from 0) is written to opening
number `i / 100000 + 1`, so that each opening receives exactly 100000 lines and
line 100001 is the first of the second opening; and the `n`-th call closes and
reopens the file exactly when `n > 1` and `n - 1` is a multiple of 100000,
while the first call opens it without closing and every other call neither
closes nor opens.  The enumerators `LOG_DEBUG_INT` and `LOG_ERROR` are taken
to differ. -/
theorem aclf_rotation (k : LogConsts) (g : Globals) (lg0 : CLogger)
    (calls : List (os_call × Str))
    (hdist : k.LOG_DEBUG_INT ≠ k.LOG_ERROR)
    (hready : aclf_ready k lg0)
    (hopen : ∀ c ∈ calls, c.1.open_ok = true) :
    ∃ lg, run_aclf k g calls lg0 = some lg ∧
      (calls ≠ [] → lg.m_aclfoutputfile = true) ∧
      lg.aclf_opens = lg0.aclf_opens + (calls.length + MAX_ACLFLOG_LINES - 1) / MAX_ACLFLOG_LINES ∧
      lg.aclf_closes = lg0.aclf_closes + (calls.length - 1) / MAX_ACLFLOG_LINES ∧
      lg.aclf_lines = lg0.aclf_lines ++
        calls.enum.map
          (fun ic => (lg0.aclf_opens + ic.1 / MAX_ACLFLOG_LINES + 1, vsnprintf ic.2.2)) ∧
      (∀ pre last, calls = pre ++ [last] →
        ∃ lgp, run_aclf k g pre lg0 = some lgp ∧
          ((lg.aclf_closes = lgp.aclf_closes + 1 ∧ lg.aclf_opens = lgp.aclf_opens + 1) ↔
            (1 < calls.length ∧ (calls.length - 1) % MAX_ACLFLOG_LINES = 0)) ∧
          (calls.length = 1 →
            lg.aclf_closes = lgp.aclf_closes ∧ lg.aclf_opens = lgp.aclf_opens + 1) ∧
          (1 < calls.length → (calls.length - 1) % MAX_ACLFLOG_LINES ≠ 0 →
            lg.aclf_closes = lgp.aclf_closes ∧ lg.aclf_opens = lgp.aclf_opens)) := by
  obtain ⟨f1, f2, f3, f4, f5⟩ := hready
  have h0 : aclf_after k lg0.aclf_opens lg0.aclf_closes 0 lg0 :=
    ⟨f1, f2, f3, by simp [f4, f5]⟩
  obtain ⟨lg, r1, r2, r3⟩ := run_aclf_steps k g _ _ hdist calls 0 lg0 h0 hopen
  refine ⟨lg, r1, ?_, ?_, ?_, ?_, ?_⟩
  · intro hne
    have hl : 0 + calls.length ≠ 0 := by
      cases calls with
      | nil => exact absurd rfl hne
      | cons _ _ => simp
    have := r2.2.2.2
    rw [if_neg hl] at this
    exact this.1
  · have := r2.2.2.2
    unfold MAX_ACLFLOG_LINES at *
    split at this
    · rename_i hz
      rw [this.2.2.1]
      omega
    · rename_i hz
      rw [this.2.2.1]
      omega
  · have := r2.2.2.2
    unfold MAX_ACLFLOG_LINES at *
    split at this
    · rename_i hz
      rw [this.2.2.2]
      omega
    · rename_i hz
      rw [this.2.2.2]
      omega
  · rw [r3]
    rfl
  · intro pre last hcalls
    have hopen2 : ∀ c ∈ pre, c.1.open_ok = true := by
      intro c hc
      apply hopen
      rw [hcalls]
      exact List.mem_append_left _ hc
    obtain ⟨lgp, p1, p2, _⟩ := run_aclf_steps k g _ _ hdist pre 0 lg0 h0 hopen2
    refine ⟨lgp, p1, ?_⟩
    have hlen : calls.length = pre.length + 1 := by rw [hcalls]; simp
    have a := r2.2.2.2
    have b := p2.2.2.2
    rw [hlen] at a ⊢
    unfold MAX_ACLFLOG_LINES at *
    simp only [Nat.zero_add, Nat.add_one_ne_zero, if_false, Nat.add_sub_cancel] at a
    simp only [Nat.zero_add] at b
    obtain ⟨_, _, a3, a4⟩ := a
    by_cases hp : pre.length = 0
    · simp only [hp, if_true] at b
      obtain ⟨_, _, b3, b4⟩ := b
      rw [a3, a4, b3, b4, hp]
      simp
    · simp only [hp, if_false] at b
      obtain ⟨_, _, b3, b4⟩ := b
      rw [a3, a4, b3, b4]
      simp only [Nat.add_sub_cancel]
      refine ⟨?_, ?_, ?_⟩
      · constructor
        · intro h; omega
        · intro h; omega
      · intro h; omega
      · intro h1 h2; omega

/-- Trimming the rendering of a token gives the name of the token. -/
theorem trim_padded (l r : Str) (t : log_token) (hl : ∀ c ∈ l, is_space c = true)
    (hr : ∀ c ∈ r, is_space c = true) : stdstring_trim (l ++ t.name ++ r) = t.name := by
  unfold stdstring_trim
  rw [List.append_assoc, List.dropWhile_append_of_pos hl]
  have h1 : List.dropWhile is_space (t.name ++ r) = t.name ++ r := by
    cases t <;> rfl
  rw [h1]
  unfold List.rdropWhile
  rw [List.reverse_append]
  have hr2 : ∀ c ∈ r.reverse, is_space c = true := fun c hc => hr c (List.mem_reverse.mp hc)
  rw [List.dropWhile_append_of_pos hr2]
  cases t <;> rfl

/-- The loop over rendered tokens ORs the bits of the tokens. -/
theorem parse_padded (k : LogConsts) (padded : List (Str × log_token × Str))
    (hws : ∀ p ∈ padded, (∀ c ∈ p.1, is_space c = true) ∧ (∀ c ∈ p.2.2, is_space c = true)) :
    ∀ acc, parse_log_flags k (padded.map render_token) acc
      = (padded.map (fun p => p.2.1)).foldl (fun m t => m ||| t.bit k) acc := by
  induction padded with
  | nil => intro acc; rfl
  | cons p ps ih =>
    intro acc
    have hp := hws p (List.mem_cons_self _ _)
    have hps : ∀ q ∈ ps, (∀ c ∈ q.1, is_space c = true) ∧ (∀ c ∈ q.2.2, is_space c = true) :=
      fun q hq => hws q (List.mem_cons_of_mem _ hq)
    obtain ⟨l, t, r⟩ := p
    simp only [List.map_cons, List.foldl_cons]
    rw [← ih hps, parse_log_flags]
    simp only [render_token, trim_padded l r t hp.1 hp.2]
    cases t <;> simp [log_token.name, log_token.bit, is_number]

/-- A bit of the accumulated mask is set exactly when it was set before or is
set in the bit of a token. -/
theorem flag_mask_testBit (k : LogConsts) (toks : List log_token) (i : Nat) :
    ∀ acc : Nat, ((toks.foldl (fun m t => m ||| t.bit k) acc).testBit i)
      = (acc.testBit i || toks.any (fun t => (t.bit k).testBit i)) := by
  induction toks with
  | nil => intro acc; simp
  | cons t ts ih =>
    intro acc
    simp only [List.foldl_cons, List.any_cons]
    rw [ih, Nat.testBit_lor, Bool.or_assoc]

/-- The mask depends on the set of tokens only. -/
theorem flag_mask_set (k : LogConsts) (toks toks2 : List log_token)
    (h : ∀ t, t ∈ toks ↔ t ∈ toks2) : flag_mask k toks = flag_mask k toks2 := by
  apply Nat.eq_of_testBit_eq
  intro i
  unfold flag_mask
  rw [flag_mask_testBit, flag_mask_testBit]
  congr 1
  rw [Bool.eq_iff_iff]
  simp only [List.any_eq_true]
  constructor
  · rintro ⟨t, ht, hb⟩
    exact ⟨t, (h t).mp ht, hb⟩
  · rintro ⟨t, ht, hb⟩
    exact ⟨t, (h t).mpr ht, hb⟩

/-- Splitting the comma-separated rendering gives the rendered tokens back. -/
theorem split_emit (padded : List (Str × log_token × Str))
    (hws : ∀ p ∈ padded, (∀ c ∈ p.1, is_space c = true) ∧ (∀ c ∈ p.2.2, is_space c = true))
    (hne : padded ≠ []) :
    StringSplit (emit_flags padded) ',' = padded.map render_token := by
  unfold StringSplit emit_flags
  apply List.splitOn_intercalate
  · intro piece hpiece
    rw [List.mem_map] at hpiece
    obtain ⟨p, hp, rfl⟩ := hpiece
    obtain ⟨h1, h2⟩ := hws p hp
    intro hmem
    rw [List.mem_append, List.mem_append] at hmem
    rcases hmem with (hm | hm) | hm
    · have := h1 _ hm
      simp [is_space] at this
    · obtain ⟨l, t, r⟩ := p
      cases t <;> simp [log_token.name] at hm
    · have := h2 _ hm
      simp [is_space] at this
  · intro h
    exact hne (List.map_eq_nil_iff.mp h)

/-- The mask `SetLogFlags` stores for a list of rendered tokens. -/
theorem SetLogFlags_string_padded (k : LogConsts) (lg : CLogger)
    (padded : List (Str × log_token × Str))
    (hws : ∀ p ∈ padded, (∀ c ∈ p.1, is_space c = true) ∧ (∀ c ∈ p.2.2, is_space c = true)) :
    (SetLogFlags_string k (emit_flags padded) lg).m_log_flags
      = if flag_mask k (padded.map (fun p => p.2.1)) = 0 then
          (k.LOG_STATUS + k.LOG_ERROR) % 2 ^ 32
        else flag_mask k (padded.map (fun p => p.2.1)) := by
  have hparse : parse_log_flags k (StringSplit (emit_flags padded) ',') 0
      = flag_mask k (padded.map (fun p => p.2.1)) := by
    by_cases hne : padded = []
    · subst hne
      rfl
    · rw [split_emit padded hws hne, parse_padded k padded hws]
      rfl
  unfold SetLogFlags_string SetLogFlags
  simp only [hparse]
  by_cases hz : flag_mask k (padded.map (fun p => p.2.1)) = 0
  · simp [hz]
  · simp [hz]

/-- C13 (log-flag round trip), as stated, fails for the empty set of flags: the
empty string leaves the mask `LOG_STATUS + LOG_ERROR`, not the empty OR. -/
theorem empty_flag_set_gives_default :
    (SetLogFlags_string consts0 (emit_flags []) (CLogger.construct consts0)).m_log_flags
      = consts0.LOG_STATUS + consts0.LOG_ERROR ∧
    (SetLogFlags_string consts0 (emit_flags []) (CLogger.construct consts0)).m_log_flags
      ≠ flag_mask consts0 [] := by
  decide

/-- C13 (log-flag round trip), amended.  For every list of tokens among
`normal`, `status`, `error`, `debug`, each surrounded by any whitespace,
`SetLogFlags` on their comma-separated rendering leaves the mask equal to the
bitwise OR of the bits of the tokens when that OR is not zero, and equal to
`LOG_STATUS + LOG_ERROR` when it is zero (as for the empty list); the mask is
the same for every other such list with the same set of tokens, whatever the
order, the whitespace and the repetitions. -/
theorem log_flags_round_trip (k : LogConsts) (lg : CLogger)
    (padded : List (Str × log_token × Str))
    (hws : ∀ p ∈ padded, (∀ c ∈ p.1, is_space c = true) ∧ (∀ c ∈ p.2.2, is_space c = true)) :
    ((SetLogFlags_string k (emit_flags padded) lg).m_log_flags
      = if flag_mask k (padded.map (fun p => p.2.1)) = 0 then
          (k.LOG_STATUS + k.LOG_ERROR) % 2 ^ 32
        else flag_mask k (padded.map (fun p => p.2.1))) ∧
    (∀ padded2 : List (Str × log_token × Str),
      (∀ p ∈ padded2, (∀ c ∈ p.1, is_space c = true) ∧ (∀ c ∈ p.2.2, is_space c = true)) →
      (∀ t, t ∈ padded.map (fun p => p.2.1) ↔ t ∈ padded2.map (fun p => p.2.1)) →
      (SetLogFlags_string k (emit_flags padded2) lg).m_log_flags
        = (SetLogFlags_string k (emit_flags padded) lg).m_log_flags) := by
  refine ⟨SetLogFlags_string_padded k lg padded hws, ?_⟩
  intro padded2 hws2 hset
  rw [SetLogFlags_string_padded k lg padded hws, SetLogFlags_string_padded k lg padded2 hws2,
    flag_mask_set k _ _ hset]

/-- C19 (console colouring of error lines), evaluated where it fails.  With the
timestamps switched off the line for the body `x` is `Error: x`, 8 bytes long,
and `Log` throws at `substr(25)`.  With timestamps and thread ids the split at
offset 25 puts the thread id `[0abc] ` into the coloured part. -/
theorem error_colouring_out_of_range :
    (format_line consts0 os0 consts0.LOG_ERROR ['x'] no_timestamps).length = 8 ∧
    Log consts0 console_globals os0 consts0.LOG_ERROR ['x'] no_timestamps = none ∧
    console_text consts0 consts0.LOG_ERROR
        (format_line consts0 os0 consts0.LOG_ERROR ['x'] with_thread_ids)
      = some ("2026-10-31 12:00:00.000  ".toList ++ ansi_red ++ "[0abc] Error: x".toList
          ++ ansi_reset) := by
  refine ⟨?_, ?_, ?_⟩ <;> rfl

/-- Witness of `GetLog_filter_and_order`: the lines of level 2 after time 5. -/
theorem GetLog_filter_and_order_witness :
    (GetLog consts0 2 5 sample_buffers).Perm
      (((map_find 2 sample_buffers.m_lastlog).getD []).filter
        (fun l => decide (l.logtime > 5))) :=
  (GetLog_filter_and_order consts0 2 5 sample_buffers).1 (by decide)

/-- Witness of `lastlog_ring_buffer`: three calls on a fresh logger. -/
theorem lastlog_ring_buffer_witness :
    map_find 2 ((run_logs consts0 console_globals sample_calls
        (CLogger.construct consts0)).getD (CLogger.construct consts0)).m_lastlog
      = if admitted_lines consts0 (CLogger.construct consts0) sample_calls 2 = [] then none
        else some ((admitted_lines consts0 (CLogger.construct consts0) sample_calls 2).drop
          ((admitted_lines consts0 (CLogger.construct consts0) sample_calls 2).length
            - MAX_LOG_LINE_BUFFER)) :=
  (lastlog_ring_buffer consts0 console_globals sample_calls (CLogger.construct consts0)
    ((run_logs consts0 console_globals sample_calls
        (CLogger.construct consts0)).getD (CLogger.construct consts0)) 2 rfl rfl).1

/-- Witness of `lastlog_misses_short_error`: the body `x`. -/
theorem lastlog_misses_short_error_witness :
    (['x'] : Str).length < 18 ∧
    admitted_lines consts0 no_timestamps
        [{ os := os0, level := consts0.LOG_ERROR, text := ['x'] }] consts0.LOG_ERROR
      = [{ logtime := os0.now, level := consts0.LOG_ERROR
           logmessage := "Error: ".toList ++ ['x'] }] ∧
    ∃ lg, Log_exit consts0 console_globals os0 consts0.LOG_ERROR ['x'] no_timestamps = .error lg ∧
      map_find consts0.LOG_ERROR lg.m_lastlog = none :=
  ⟨by decide, (lastlog_misses_short_error os0 ['x'] (by decide)).2.1,
    (lastlog_misses_short_error os0 ['x'] (by decide)).2.2.2.imp (fun _ h => ⟨h.1, h.2.1⟩)⟩

/-- Witness of `aclf_rotation`: two lines on a fresh access log. -/
theorem aclf_rotation_witness :
    ∃ lg, run_aclf consts0 console_globals two_requests aclf_logger = some lg ∧
      (two_requests ≠ [] → lg.m_aclfoutputfile = true) :=
  (aclf_rotation consts0 console_globals aclf_logger two_requests (by decide)
    ⟨by decide, by decide, ⟨_, rfl, by decide⟩, rfl, rfl⟩ (by decide)).imp
    (fun _ h => ⟨h.1, h.2.1⟩)

/-- Witness of `log_flags_round_trip`: three padded tokens. -/
theorem log_flags_round_trip_witness :
    (SetLogFlags_string consts0 (emit_flags padded_flags) (CLogger.construct consts0)).m_log_flags
      = if flag_mask consts0 (padded_flags.map (fun p => p.2.1)) = 0 then
          (consts0.LOG_STATUS + consts0.LOG_ERROR) % 2 ^ 32
        else flag_mask consts0 (padded_flags.map (fun p => p.2.1)) :=
  (log_flags_round_trip consts0 (CLogger.construct consts0) padded_flags (by decide)).1

end logger
